import Mathlib

/-!
# extclib `array.c`: the tagged slot container (array view and stack view)

A shallow embedding of `src/array.c`.

* `size_t` values are natural numbers below `2 ^ 64`; the three places where the
  source does unsigned arithmetic on them (`top - begin`, `top += 1`, `--top`)
  wrap around (`size_t_sub`, `size_t_succ`, `size_t_pred`).
* `int32_t` conversions are embedded by `int32_t_of` (wrap modulo `2 ^ 32`).
* `double` is its IEEE-754 binary64 bit pattern; `double_eq` is the C operator
  `==` on two such patterns.
* `buffer` is the memory reached through the pointer `array->buffer`: a map
  from cell index to cell.  `new_array` allocates and zeroes a block of
  `size * sizeof(array_value)` bytes, the product computed in `size_t`; the
  cells past the block hold what the memory held before.  The source does not
  test the result of `malloc`: the embedding is of the runs in which the
  allocations succeed.
* The collaborators `list.h`, `tree.h`, `hashtab.h`, `bigint.h` are included by
  `array.c` but are not part of the sources; their types and their comparison
  functions are the parameter `Collab`.
* A function that writes to `*array` returns the new container next to its
  C result; a function that only reads is a plain function of the container.
  Calls to `free`, `free_list`, ... change no field of the container and are
  not part of the state: the deep-free invocations of an operation are given
  by a function of their own (`free_array`, `set_array_releases`, ...).
* Output is the text written to `stdout`, as a `String`.
* A never-set cell of a pointer kind holds the null pointer (`null`).  The
  array view reads present cells only; the stack view reads the cells of its
  window whatever their flag, and where it hands a null pointer to a function
  that dereferences it, or to a collaborator, `cmp_stack` and `print_stack`
  have no result (`none`).
-/

namespace extclib

/-! ## Scalars -/

/-- Number of values of `size_t` (LP64). -/
def SIZE_MOD : Nat := 2 ^ 64

/-- Unsigned subtraction `a - b` on `size_t`: the difference, taken from `2 ^ 64`
when `b` exceeds `a`. -/
def size_t_sub (a b : Nat) : Nat := if b ≤ a then a - b else SIZE_MOD - (b - a)

/-- Unsigned increment `a + 1` on `size_t`. -/
def size_t_succ (a : Nat) : Nat := (a + 1) % SIZE_MOD

/-- Unsigned decrement `a - 1` on `size_t`: `0` wraps to `2 ^ 64 - 1`. -/
def size_t_pred (a : Nat) : Nat := if a = 0 then SIZE_MOD - 1 else a - 1

/-- Conversion of an integer to `int32_t` (two's complement wrap). -/
@[irreducible] def int32_t_of (x : Int) : Int := (x + 2 ^ 31) % 2 ^ 32 - 2 ^ 31

/-- A `double`, as its IEEE-754 binary64 bit pattern. -/
structure double where
  bits : Nat
  deriving DecidableEq

/-- The pattern is a NaN: exponent field all ones, fraction field non-zero. -/
def double.is_nan (d : double) : Bool :=
  (d.bits / 2 ^ 52) % 2 ^ 11 == 2047 && d.bits % 2 ^ 52 != 0

/-- The pattern is `+0.0` or `-0.0`. -/
def double.is_zero (d : double) : Bool := d.bits % 2 ^ 63 == 0

/-- The C operator `==` on two doubles: false as soon as one side is a NaN, true
on two zeros of either sign, otherwise equality of the patterns. -/
def double_eq (a b : double) : Bool :=
  !a.is_nan && !b.is_nan && ((a.is_zero && b.is_zero) || a.bits == b.bits)

/-- The libc `strcmp` on two byte strings, each given by its bytes; the end of
the list is the terminating NUL, and a zero byte inside the list ends the
string there as it does in C. -/
def strcmp : List Nat → List Nat → Int
  | [], [] => 0
  | [], b :: _ => 0 - (b : Int)
  | a :: _, [] => (a : Int) - 0
  | a :: as, b :: bs =>
    if a ≠ b then (a : Int) - (b : Int) else if a = 0 then 0 else strcmp as bs

/-! ## Data model -/

/-- The element kind `vtype_t`.  `array.c` uses the eight enumerators below
(`type.h` as found in the sources declares the first three only).  `OTHER`
stands for any other integer a C enum object can hold. -/
inductive vtype_t where
  | DECIMAL_ELEM
  | REAL_ELEM
  | STRING_ELEM
  | LIST_ELEM
  | TREE_ELEM
  | HASHTAB_ELEM
  | ARRAY_ELEM
  | BIGINT_ELEM
  | OTHER (code : Nat)
  deriving DecidableEq

/-- The eight kinds accepted by the `switch` of `new_array`. -/
def supported_kinds : List vtype_t :=
  [.DECIMAL_ELEM, .REAL_ELEM, .STRING_ELEM, .LIST_ELEM, .TREE_ELEM, .HASHTAB_ELEM,
   .ARRAY_ELEM, .BIGINT_ELEM]

/-- The external collaborators of `array.c`: the four composite types and the
comparison each of them exports (`0` means equal). -/
structure Collab where
  List : Type
  Tree : Type
  HashTab : Type
  BigInt : Type
  cmp_list : List → List → Int
  cmp_tree : Tree → Tree → Int
  cmp_hashtab : HashTab → HashTab → Int
  cmp_bigint : BigInt → BigInt → Int

/-- A buffer cell `struct array_value`. -/
structure array_value (V : Type) where
  value : V
  exist : Bool

/-- The stack window `struct array_stack` (`end` is written `end_`). -/
structure array_stack where
  begin : Nat
  end_ : Nat
  top : Nat
  deriving DecidableEq

/-- The container `struct Array`, over the type `V` of its cell values; the C
type is `Array (value_t C)`. -/
structure Array (V : Type) where
  type : vtype_t
  buffer : Nat → array_value V
  stack : array_stack
  size : Nat

/-- The union `value_t`, read through the member that the kind of the container
selects.  A `void *` argument of the API is the same type: what `decimal(x)`,
`real(x)`, `string(x)` or a collaborator's constructor hands over.  `null` is
the all-zero pointer that `memset` leaves in a cell of a pointer kind. -/
inductive value_t (C : Collab) where
  | decimal (x : Int)
  | real (x : double)
  | string (s : List Nat)
  | list (l : C.List)
  | tree (t : C.Tree)
  | hashtab (h : C.HashTab)
  | array (a : Array (value_t C))
  | bigint (b : C.BigInt)
  | null

/-- The value `v` is a well-formed argument for a container of kind `t`: its
variant is the one of the kind (and a decimal is an `int32_t`). -/
def has_kind {C : Collab} : value_t C → vtype_t → Bool
  | .decimal x, .DECIMAL_ELEM => decide (-(2 ^ 31) ≤ x ∧ x < 2 ^ 31)
  | .real _, .REAL_ELEM => true
  | .string _, .STRING_ELEM => true
  | .list _, .LIST_ELEM => true
  | .tree _, .TREE_ELEM => true
  | .hashtab _, .HASHTAB_ELEM => true
  | .array _, .ARRAY_ELEM => true
  | .bigint _, .BIGINT_ELEM => true
  | _, _ => false

/-- The cell value is the null pointer of a zeroed cell of a kind stored as a
pointer (string, list, tree, hash table, array, big integer). -/
def null_pointer {C : Collab} (type : vtype_t) (value : value_t C) : Bool :=
  match value with
  | .null =>
    match type with
    | .STRING_ELEM | .LIST_ELEM | .TREE_ELEM | .HASHTAB_ELEM | .ARRAY_ELEM | .BIGINT_ELEM => true
    | _ => false
  | _ => false

/-- The window invariant `begin ≤ top ≤ end ≤ size`. -/
def window_ok {V : Type} (a : Array V) : Prop :=
  a.stack.begin ≤ a.stack.top ∧ a.stack.top ≤ a.stack.end_ ∧ a.stack.end_ ≤ a.size

instance {V : Type} (a : Array V) : Decidable (window_ok a) := by
  unfold window_ok; infer_instance

/-! ## Construction and indexed access -/

/-- What a cell zeroed by `memset` holds, read through the member of kind `t`. -/
def zero_value (C : Collab) : vtype_t → value_t C
  | .DECIMAL_ELEM => .decimal 0
  | .REAL_ELEM => .real ⟨0⟩
  | _ => .null

/-- The size of a cell, `sizeof(array_value)`: the union `value_t` of 8 bytes and a
`_Bool`, padded to the alignment of the union (LP64). -/
def sizeof_array_value : Nat := 16

/-- The number of cells in the block that `malloc(size * sizeof(array_value))`
returns and `memset` zeroes: the product is computed in `size_t`. -/
def new_array_cells (size : Nat) : Nat :=
  (size * sizeof_array_value % SIZE_MOD) / sizeof_array_value

/-- Source `new_array`: `none` is the `NULL` result.  `memory` is what the memory
at the address of the block holds, cell by cell, before the call: `memset`
zeroes the cells of the block and the memory past the block stays as it is. -/
def new_array (C : Collab) (memory : Nat → array_value (value_t C)) (size : Nat)
    (type : vtype_t) : Option (Array (value_t C)) :=
  match type with
  | .DECIMAL_ELEM | .REAL_ELEM | .STRING_ELEM | .LIST_ELEM | .TREE_ELEM | .HASHTAB_ELEM
  | .ARRAY_ELEM | .BIGINT_ELEM =>
    some { type := type
           buffer := fun i =>
             if i < new_array_cells size then { value := zero_value C type, exist := false }
             else memory i
           stack := { begin := 0, end_ := size, top := 0 }
           size := size }
  | .OTHER _ => none

/-- Source `get_array`: `none` is the uninitialised `value_t none` returned for an
index beyond the capacity. -/
def get_array {C : Collab} (array : Array (value_t C)) (index : Nat) : Option (value_t C) :=
  if index ≥ array.size then none else some (array.buffer index).value

/-- Source `_set_node_array`, the state it leaves (the release of the old
content of a present cell changes no field).  In the `DECIMAL_ELEM` case the
argument goes through `(int32_t)(intptr_t)`; for a kind outside the eight the
`switch` stores nothing and only the flag is set. -/
def _set_node_array {C : Collab} (array : Array (value_t C)) (index : Nat)
    (value : value_t C) : Array (value_t C) :=
  let stored : value_t C :=
    match array.type with
    | .DECIMAL_ELEM =>
      match value with
      | .decimal x => .decimal (int32_t_of x)
      | other => other
    | .REAL_ELEM | .STRING_ELEM | .LIST_ELEM | .TREE_ELEM | .HASHTAB_ELEM | .ARRAY_ELEM
    | .BIGINT_ELEM => value
    | .OTHER _ => (array.buffer index).value
  { array with buffer := Function.update array.buffer index { value := stored, exist := true } }

/-- Source `set_array`: the status and the container afterwards. -/
def set_array {C : Collab} (array : Array (value_t C)) (index : Nat) (value : value_t C) :
    Int × Array (value_t C) :=
  if index ≥ array.size then (1, array) else (0, _set_node_array array index value)

/-! ## Stack view -/

/-- Source `size_stack`. -/
def size_stack {V : Type} (array : Array V) : Nat :=
  size_t_sub array.stack.top array.stack.begin

/-- Source `set_stack`: the status and the container afterwards. -/
def set_stack {V : Type} (array : Array V) (top begin end_ : Nat) : Int × Array V :=
  if end_ > array.size then (1, array)
  else if begin > end_ then (2, array)
  else if top > end_ ∨ top < begin then (3, array)
  else (0, { array with stack := { begin := begin, end_ := end_, top := top } })

/-- Source `push_stack`: the status and the container afterwards. -/
def push_stack {C : Collab} (array : Array (value_t C)) (value : value_t C) :
    Int × Array (value_t C) :=
  if array.stack.top = array.stack.end_ then (1, array)
  else
    let stored := _set_node_array array array.stack.top value
    (0, { stored with stack := { stored.stack with top := size_t_succ stored.stack.top } })

/-- Source `pop_stack`: the value returned (`none` is the uninitialised
`value_t none` of the failure branch) and the container afterwards. -/
def pop_stack {C : Collab} (array : Array (value_t C)) :
    Option (value_t C) × Array (value_t C) :=
  if array.stack.top = array.stack.begin then (none, array)
  else
    let moved : Array (value_t C) :=
      { array with stack := { array.stack with top := size_t_pred array.stack.top } }
    (some (moved.buffer moved.stack.top).value, moved)

/-! ## Comparison and search -/

/-- The loop `for (i = start; i < start + n; ++i)` whose body either returns from
the enclosing function (`some r`) or goes on to the next index (`none`);
`none` is the exit at the end of the range. -/
def for_return {R : Type} (body : Nat → Option R) : Nat → Nat → Option R
  | 0, _ => none
  | n + 1, i =>
    match body i with
    | some r => some r
    | none => for_return body n (i + 1)

mutual
/-- Source `cmp_array`. -/
def cmp_array {C : Collab} : Array (value_t C) → Array (value_t C) → Int
  | ⟨xtype, xbuffer, _, xsize⟩, ⟨ytype, ybuffer, _, ysize⟩ =>
    if xtype ≠ ytype then -1
    else if xsize ≠ ysize then -2
    else
      match for_return (fun i => cmp_array_body xtype (xbuffer i) (ybuffer i)) xsize 0 with
      | some r => r
      | none => 0
/-- The body of the loop of `cmp_array`, on the kind and the two cells
`x->buffer[i]`, `y->buffer[i]`: `none` is `continue` or the end of the body,
`some r` is `return r`. -/
def cmp_array_body {C : Collab} (type : vtype_t) :
    array_value (value_t C) → array_value (value_t C) → Option Int
  | ⟨xvalue, xexist⟩, ⟨yvalue, yexist⟩ =>
    if !xexist && !yexist then none
    else if !xexist || !yexist then some 2
    else if !(_cmp_node_array type xvalue yvalue) then some 1
    else none
/-- Source `_cmp_node_array`, on the kind `x->type` and the two cell values
`x->buffer[ix].value`, `y->buffer[iy].value` it reads.  `flag` starts at `0`
and stays there for a kind outside the eight; a cell whose value is not of
the member read by the `case` is outside the model and leaves it at `0` too.
The function is the comparison of the values that present cells hold; the
null pointer of a never-set cell, which only `cmp_stack` can reach, is
handled in `cmp_stack_body`. -/
def _cmp_node_array {C : Collab} (type : vtype_t) : value_t C → value_t C → Bool
  | xvalue, yvalue =>
    match type with
    | .DECIMAL_ELEM =>
      match xvalue, yvalue with
      | .decimal a, .decimal b => a == b
      | _, _ => false
    | .REAL_ELEM =>
      match xvalue, yvalue with
      | .real a, .real b => double_eq a b
      | _, _ => false
    | .STRING_ELEM =>
      match xvalue, yvalue with
      | .string a, .string b => strcmp a b == 0
      | _, _ => false
    | .LIST_ELEM =>
      match xvalue, yvalue with
      | .list a, .list b => C.cmp_list a b == 0
      | _, _ => false
    | .TREE_ELEM =>
      match xvalue, yvalue with
      | .tree a, .tree b => C.cmp_tree a b == 0
      | _, _ => false
    | .HASHTAB_ELEM =>
      match xvalue, yvalue with
      | .hashtab a, .hashtab b => C.cmp_hashtab a b == 0
      | _, _ => false
    | .ARRAY_ELEM =>
      match xvalue, yvalue with
      | .array a, .array b => cmp_array a b == 0
      | _, _ => false
    | .BIGINT_ELEM =>
      match xvalue, yvalue with
      | .bigint a, .bigint b => C.cmp_bigint a b == 0
      | _, _ => false
    | .OTHER _ => false
end

/-- The `switch` of `in_array`: the flag for the probe `value` against the value
of one cell.  The decimal probe goes through `(int32_t)(intptr_t)`; the probe
is the first argument of every comparison. -/
def in_array_flag {C : Collab} (type : vtype_t) (value cell : value_t C) : Bool :=
  match type with
  | .DECIMAL_ELEM =>
    match value, cell with
    | .decimal p, .decimal c => int32_t_of p == c
    | _, _ => false
  | .REAL_ELEM =>
    match value, cell with
    | .real p, .real c => double_eq p c
    | _, _ => false
  | .STRING_ELEM =>
    match value, cell with
    | .string p, .string c => strcmp p c == 0
    | _, _ => false
  | .LIST_ELEM =>
    match value, cell with
    | .list p, .list c => C.cmp_list p c == 0
    | _, _ => false
  | .TREE_ELEM =>
    match value, cell with
    | .tree p, .tree c => C.cmp_tree p c == 0
    | _, _ => false
  | .HASHTAB_ELEM =>
    match value, cell with
    | .hashtab p, .hashtab c => C.cmp_hashtab p c == 0
    | _, _ => false
  | .ARRAY_ELEM =>
    match value, cell with
    | .array p, .array c => cmp_array p c == 0
    | _, _ => false
  | .BIGINT_ELEM =>
    match value, cell with
    | .bigint p, .bigint c => C.cmp_bigint p c == 0
    | _, _ => false
  | .OTHER _ => false

/-- Source `in_array`: the `int32_t` it returns (`return index` converts the
`size_t` index). -/
def in_array {C : Collab} (array : Array (value_t C)) (value : value_t C) : Int :=
  match for_return (fun index =>
      if !(array.buffer index).exist then none
      else if in_array_flag array.type value (array.buffer index).value then
        some (int32_t_of (index : Int))
      else none) array.size 0 with
  | some r => r
  | none => -1

/-! ## Vocabulary of the statements -/

/-- The two containers agree at index `i`: both cells absent, or both present
with values equal under the comparison of the kind. -/
def cell_agree {C : Collab} (x y : Array (value_t C)) (i : Nat) : Bool :=
  (!(x.buffer i).exist && !(y.buffer i).exist) ||
  ((x.buffer i).exist && (y.buffer i).exist &&
    _cmp_node_array x.type (x.buffer i).value (y.buffer i).value)

/-- The comparisons of the collaborators are symmetric in their verdict. -/
def collab_symm (C : Collab) : Prop :=
  (∀ a b, C.cmp_list a b = 0 ↔ C.cmp_list b a = 0) ∧
  (∀ a b, C.cmp_tree a b = 0 ↔ C.cmp_tree b a = 0) ∧
  (∀ a b, C.cmp_hashtab a b = 0 ↔ C.cmp_hashtab b a = 0) ∧
  (∀ a b, C.cmp_bigint a b = 0 ↔ C.cmp_bigint b a = 0)

/-- The comparisons of the collaborators find every value equal to itself. -/
def collab_refl (C : Collab) : Prop :=
  (∀ a, C.cmp_list a a = 0) ∧ (∀ a, C.cmp_tree a a = 0) ∧
  (∀ a, C.cmp_hashtab a a = 0) ∧ (∀ a, C.cmp_bigint a a = 0)

mutual
/-- Every present cell below the capacity holds a value of the kind of the
container that is not a NaN, and so do the containers nested in it. -/
def array_regular {C : Collab} : Array (value_t C) → Bool
  | ⟨type, buffer, _, size⟩ => (List.range size).all (fun i => cell_regular type (buffer i))
/-- An absent cell, or a present cell with a regular value. -/
def cell_regular {C : Collab} (type : vtype_t) : array_value (value_t C) → Bool
  | ⟨value, exist⟩ => !exist || value_regular type value
/-- A value of the kind `type` that is not a NaN; a nested container is regular. -/
def value_regular {C : Collab} (type : vtype_t) : value_t C → Bool
  | .decimal _ => decide (type = .DECIMAL_ELEM)
  | .real d => decide (type = .REAL_ELEM) && !d.is_nan
  | .string _ => decide (type = .STRING_ELEM)
  | .list _ => decide (type = .LIST_ELEM)
  | .tree _ => decide (type = .TREE_ELEM)
  | .hashtab _ => decide (type = .HASHTAB_ELEM)
  | .array a => decide (type = .ARRAY_ELEM) && array_regular a
  | .bigint _ => decide (type = .BIGINT_ELEM)
  | .null => false
end

/-! ## Releases -/

/-- One invocation of a deep-free by the container: the kind that selected the
function (`free_list`, `free_tree`, `free_hashtab`, `free_array`,
`free_bigint`), the cell content it was invoked on, and, for `free_array`, the
invocations made inside that call.  What a collaborator's deep-free releases
inside is not part of the sources; its `inner` is empty. -/
inductive release (C : Collab) where
  | mk (kind : vtype_t) (content : value_t C) (inner : List (release C))

/-- The kind of an invocation. -/
def release.kind {C : Collab} : release C → vtype_t
  | .mk kind _ _ => kind

/-- The content an invocation was made on. -/
def release.content {C : Collab} : release C → value_t C
  | .mk _ content _ => content

/-- The invocations made inside an invocation. -/
def release.inner {C : Collab} : release C → List (release C)
  | .mk _ _ inner => inner

/-- A loop `for (i = start; i < start + n; ++i)` whose body only invokes
releases: the invocations of all iterations, in order. -/
def for_log {E : Type} (body : Nat → List E) : Nat → Nat → List E
  | 0, _ => []
  | n + 1, i => body i ++ for_log body n (i + 1)

mutual
/-- Source `free_array`, the deep-free invocations it makes on cell contents
(`free(array->buffer)` and `free(array)` release the container itself). -/
def free_array {C : Collab} : Array (value_t C) → List (release C)
  | ⟨type, buffer, _, size⟩ =>
    match type with
    | .LIST_ELEM | .TREE_ELEM | .HASHTAB_ELEM | .ARRAY_ELEM | .BIGINT_ELEM =>
      for_log (fun i => _free_array_body type (buffer i)) size 0
    | _ => []
/-- The body of the loop of `_free_array` on the cell `array->buffer[i]`. -/
def _free_array_body {C : Collab} (type : vtype_t) : array_value (value_t C) → List (release C)
  | ⟨value, exist⟩ => if !exist then [] else _free_node_array type value
/-- Source `_free_node_array`, on the kind `array->type` and the cell value
`array->buffer[index].value` it reads. -/
def _free_node_array {C : Collab} (type : vtype_t) (value : value_t C) : List (release C) :=
  match type with
  | .LIST_ELEM => [.mk .LIST_ELEM value []]
  | .TREE_ELEM => [.mk .TREE_ELEM value []]
  | .HASHTAB_ELEM => [.mk .HASHTAB_ELEM value []]
  | .ARRAY_ELEM =>
    match value with
    | .array a => [.mk .ARRAY_ELEM (.array a) (free_array a)]
    | other => [.mk .ARRAY_ELEM other []]
  | .BIGINT_ELEM => [.mk .BIGINT_ELEM value []]
  | _ => []
end

/-- Source `_free_array`: the loop over the cells, skipping the absent ones. -/
def _free_array {C : Collab} (array : Array (value_t C)) : List (release C) :=
  for_log (fun i =>
    if !(array.buffer i).exist then []
    else _free_node_array array.type (array.buffer i).value) array.size 0

/-- Source `del_array`: the status and the container afterwards. -/
def del_array {C : Collab} (array : Array (value_t C)) (index : Nat) :
    Int × Array (value_t C) :=
  if index ≥ array.size then (1, array)
  else
    (0, { array with
          buffer := Function.update array.buffer index
            { value := (array.buffer index).value, exist := false } })

/-- Source `del_array`, the deep-free invocations it makes: `_free_node_array` is
called on the cell whatever its flag. -/
def del_array_releases {C : Collab} (array : Array (value_t C)) (index : Nat) :
    List (release C) :=
  if index ≥ array.size then [] else _free_node_array array.type (array.buffer index).value

/-- Source `_set_node_array`, the deep-free invocations it makes: the old content
of the cell when the cell is present.  The new value is stored, never passed
to a release. -/
def _set_node_array_releases {C : Collab} (array : Array (value_t C)) (index : Nat)
    (_value : value_t C) : List (release C) :=
  if (array.buffer index).exist then _free_node_array array.type (array.buffer index).value
  else []

/-- Source `set_array`, the deep-free invocations it makes. -/
def set_array_releases {C : Collab} (array : Array (value_t C)) (index : Nat)
    (value : value_t C) : List (release C) :=
  if index ≥ array.size then [] else _set_node_array_releases array index value

/-- Source `push_stack`, the deep-free invocations it makes. -/
def push_stack_releases {C : Collab} (array : Array (value_t C)) (value : value_t C) :
    List (release C) :=
  if array.stack.top = array.stack.end_ then []
  else _set_node_array_releases array array.stack.top value

/-! ## Stack comparison -/

/-- The loop `for (; i < top; ++i, ++j)` run for `n` iterations from `i`, `j`:
`++i` stays below `top`, `++j` is the `size_t` increment. -/
def for_return2 {R : Type} (body : Nat → Nat → Option R) : Nat → Nat → Nat → Option R
  | 0, _, _ => none
  | n + 1, i, j =>
    match body i j with
    | some r => some r
    | none => for_return2 body n (i + 1) (size_t_succ j)

/-- The body of the loop of `cmp_stack`, on the kind and the two cell values it
reads: `some (some 1)` is `return 1`, `none` is the end of the body.  When
one of the cells is a never-set cell of a pointer kind, `_cmp_node_array`
hands its null pointer to `strcmp` or `cmp_array`, which dereference it, or
to a collaborator's comparison, whose handling of it is not in the sources:
the call has no result, `some none`. -/
def cmp_stack_body {C : Collab} (type : vtype_t) (xvalue yvalue : value_t C) :
    Option (Option Int) :=
  if null_pointer type xvalue || null_pointer type yvalue then some none
  else if !(_cmp_node_array type xvalue yvalue) then some (some 1)
  else none

/-- Source `cmp_stack`: the loop runs while `i < x->stack.top`, that is
`top - begin` times from `begin` (not at all when `top ≤ begin`); `none` when
the call has no result. -/
def cmp_stack {C : Collab} (x y : Array (value_t C)) : Option Int :=
  if x.type ≠ y.type then some (-1)
  else if size_t_sub x.stack.end_ x.stack.begin ≠ size_t_sub y.stack.end_ y.stack.begin then
    some (-2)
  else if size_t_sub x.stack.top x.stack.begin ≠ size_t_sub y.stack.top y.stack.begin then
    some (-3)
  else
    match for_return2 (fun i j => cmp_stack_body x.type (x.buffer i).value (y.buffer j).value)
        (x.stack.top - x.stack.begin) x.stack.begin y.stack.begin with
    | some r => r
    | none => some 0

/-! ## Printing -/

/-- What `array.c` does not contain of its printing: the rendering of a double by
`printf("%lf", ...)` and the printers of the collaborators, each given by the
text it writes. -/
structure Printers (C : Collab) where
  printf_lf : double → String
  print_list : C.List → String
  print_tree : C.Tree → String
  print_hashtab : C.HashTab → String
  print_bigint : C.BigInt → String

/-- The text of `printf("%d", x)`. -/
def printf_d (x : Int) : String := toString x

/-- The text of `printf("%s", s)`: the bytes up to the terminating NUL, one
character each. -/
def printf_s (s : List Nat) : String := String.mk ((s.takeWhile (fun b => b ≠ 0)).map Char.ofNat)

/-- A loop `for (i = start; i < start + n; ++i)` whose body only prints: the text
of all iterations, in order. -/
def for_print (body : Nat → String) : Nat → Nat → String
  | 0, _ => ""
  | n + 1, i => body i ++ for_print body n (i + 1)

mutual
/-- Source `print_array`, the text it writes. -/
def print_array {C : Collab} (P : Printers C) : Array (value_t C) → String
  | ⟨type, buffer, _, size⟩ =>
    "#A[ " ++ for_print (fun i => print_array_body P type i (buffer i)) size 0 ++ "]"
/-- The body of the loop of `print_array` at index `i`, on the cell
`array->buffer[i]`; `"%d"` prints the `size_t` index as an `int`. -/
def print_array_body {C : Collab} (P : Printers C) (type : vtype_t) (i : Nat) :
    array_value (value_t C) → String
  | ⟨value, exist⟩ =>
    if !exist then ""
    else "(" ++ printf_d (int32_t_of (i : Int)) ++ " :: " ++ _print_node_array P type value ++ ") "
/-- Source `_print_node_array`, on the kind `array->type` and the cell value
`array->buffer[index].value` it reads; `printf` writes the null pointer of a
never-set string cell as `(null)`; a value that is not of the member the
`case` reads is outside the model and prints nothing.  The function is the
rendering of the values that present cells hold; the null pointer of a
never-set cell of another pointer kind, which only `print_stack` can reach,
is handled in `print_stack_body`. -/
def _print_node_array {C : Collab} (P : Printers C) (type : vtype_t) (value : value_t C) :
    String :=
  match type with
  | .DECIMAL_ELEM =>
    match value with
    | .decimal x => printf_d x
    | _ => ""
  | .REAL_ELEM =>
    match value with
    | .real d => P.printf_lf d
    | _ => ""
  | .STRING_ELEM =>
    match value with
    | .string s => "'" ++ printf_s s ++ "'"
    | .null => "'(null)'"
    | _ => ""
  | .LIST_ELEM =>
    match value with
    | .list l => P.print_list l
    | _ => ""
  | .TREE_ELEM =>
    match value with
    | .tree t => P.print_tree t
    | _ => ""
  | .HASHTAB_ELEM =>
    match value with
    | .hashtab h => P.print_hashtab h
    | _ => ""
  | .ARRAY_ELEM =>
    match value with
    | .array a => print_array P a
    | _ => ""
  | .BIGINT_ELEM =>
    match value with
    | .bigint b => P.print_bigint b
    | _ => ""
  | .OTHER _ => ""
end

/-- A loop `for (i = start; i < start + n; ++i)` whose body prints, or has no
result: the text of all iterations in order, or `none` when an iteration has
no result. -/
def for_print_defined (body : Nat → Option String) : Nat → Nat → Option String
  | 0, _ => some ""
  | n + 1, i =>
    match body i with
    | none => none
    | some s =>
      match for_print_defined body n (i + 1) with
      | none => none
      | some rest => some (s ++ rest)

/-- The body of the loop of `print_stack`, on the kind and the cell value it
reads: the rendering of the cell and a space.  For a never-set cell of the
list, tree, hash table, array or big integer kind `_print_node_array` hands
the null pointer to `print_array`, which dereferences it, or to a
collaborator's printer, whose handling of it is not in the sources: the call
has no result, `none`. -/
def print_stack_body {C : Collab} (P : Printers C) (type : vtype_t) (value : value_t C) :
    Option String :=
  if null_pointer type value && decide (type ≠ .STRING_ELEM) then none
  else some (_print_node_array P type value ++ " ")

/-- Source `print_stack`, the text it writes: the loop runs from `begin` while
`i < top`; `none` when the call has no result. -/
def print_stack {C : Collab} (P : Printers C) (array : Array (value_t C)) : Option String :=
  match for_print_defined (fun i => print_stack_body P array.type (array.buffer i).value)
      (array.stack.top - array.stack.begin) array.stack.begin with
  | none => none
  | some s => some ("#S[ " ++ s ++ "]")

/-! ## Sequences of calls -/

/-- A call of one of the operations that take an existing container. -/
inductive api_call (C : Collab) where
  | set_array (index : Nat) (value : value_t C)
  | del_array (index : Nat)
  | in_array (value : value_t C)
  | set_stack (top begin end_ : Nat)
  | push_stack (value : value_t C)
  | pop_stack

/-- The container after a call (`in_array` writes nothing). -/
def api_call.run {C : Collab} : api_call C → Array (value_t C) → Array (value_t C)
  | .set_array index value, a => (extclib.set_array a index value).2
  | .del_array index, a => (extclib.del_array a index).2
  | .in_array _, a => a
  | .set_stack top begin end_, a => (extclib.set_stack a top begin end_).2
  | .push_stack value, a => (extclib.push_stack a value).2
  | .pop_stack, a => (extclib.pop_stack a).2

/-- The container after a sequence of calls, first call first. -/
def run_calls {C : Collab} : List (api_call C) → Array (value_t C) → Array (value_t C)
  | [], a => a
  | c :: cs, a => run_calls cs (c.run a)

/-! ## More vocabulary of the statements -/

/-- The kinds whose cells own a composite: the `case` labels of `free_array`. -/
def composite_kinds : List vtype_t :=
  [.LIST_ELEM, .TREE_ELEM, .HASHTAB_ELEM, .ARRAY_ELEM, .BIGINT_ELEM]

/-- The indices below the capacity whose cell is present, in ascending order. -/
def present_indices {C : Collab} (a : Array (value_t C)) : List Nat :=
  (List.range a.size).filter (fun j => (a.buffer j).exist)

/-- What `free_array` releases inside when it is invoked on the content of a
cell of an array container; nothing is known for the other kinds. -/
def nested_releases {C : Collab} (type : vtype_t) (value : value_t C) : List (release C) :=
  match type with
  | .ARRAY_ELEM =>
    match value with
    | .array a => free_array a
    | _ => []
  | _ => []

/-- The texts of a list, one after the other. -/
def concat : List String → String
  | [] => ""
  | s :: rest => s ++ concat rest

/-- The pairs of indices `(i, j)` at which the loop of `cmp_stack` evaluates its
body when it runs to the end. -/
def for_return2_visits : Nat → Nat → Nat → List (Nat × Nat)
  | 0, _, _ => []
  | n + 1, i, j => (i, j) :: for_return2_visits n (i + 1) (size_t_succ j)

/-! ## Sample data -/

/-- A small instance of the collaborators: lists of integers, unit trees and
hash tables, natural numbers as big integers, each compared by equality. -/
def sample_collab : Collab where
  List := List Int
  Tree := Unit
  HashTab := Unit
  BigInt := Nat
  cmp_list := fun a b => if a = b then 0 else 1
  cmp_tree := fun _ _ => 0
  cmp_hashtab := fun _ _ => 0
  cmp_bigint := fun a b => if a = b then 0 else 1

/-- The statuses of `push_stack` applied to the values of `values` in order, and
the container after the last of them. -/
def push_seq {C : Collab} (array : Array (value_t C)) :
    List (value_t C) → List Int × Array (value_t C)
  | [] => ([], array)
  | v :: vs =>
    let r := push_stack array v
    let rest := push_seq r.2 vs
    (r.1 :: rest.1, rest.2)

/-- The results of `n` successive calls of `pop_stack`, first call first, and the
container after the last of them. -/
def pop_seq {C : Collab} (array : Array (value_t C)) :
    Nat → List (Option (value_t C)) × Array (value_t C)
  | 0 => ([], array)
  | n + 1 =>
    let r := pop_stack array
    let rest := pop_seq r.2 n
    (r.1 :: rest.1, rest.2)

/-- Memory in which every cell holds the decimal `7` and a set flag. -/
def sample_memory : Nat → array_value (value_t sample_collab) :=
  fun _ => { value := .decimal 7, exist := true }

/-- A list container of capacity 3 as `new_array` returns it. -/
def sample_lists : Array (value_t sample_collab) :=
  { type := .LIST_ELEM
    buffer := fun _ => { value := .null, exist := false }
    stack := { begin := 0, end_ := 3, top := 0 }
    size := 3 }

/-- A decimal container of capacity 2 whose window `[0, 2)` already holds one
element (`top = 1`). -/
def sample_half_full : Array (value_t sample_collab) :=
  { type := .DECIMAL_ELEM
    buffer := fun i => if i = 0 then { value := .decimal 7, exist := true }
                       else { value := .decimal 0, exist := false }
    stack := { begin := 0, end_ := 2, top := 1 }
    size := 2 }

/-- A decimal container of capacity 3 as `new_array` returns it. -/
def sample_decimals : Array (value_t sample_collab) :=
  { type := .DECIMAL_ELEM
    buffer := fun _ => { value := .decimal 0, exist := false }
    stack := { begin := 0, end_ := 3, top := 0 }
    size := 3 }

/-- A real container of capacity 1 as `new_array` returns it. -/
def sample_reals : Array (value_t sample_collab) :=
  { type := .REAL_ELEM
    buffer := fun _ => { value := .real ⟨0⟩, exist := false }
    stack := { begin := 0, end_ := 1, top := 0 }
    size := 1 }

/-- The real container of capacity 1 after `set_array` stored a quiet NaN
(`0x7FF8000000000000`) at index 0. -/
def sample_nan : Array (value_t sample_collab) :=
  (set_array sample_reals 0 (.real ⟨9221120237041090560⟩)).2

/-- The half-full decimal container with `8` instead of `7` in cell 0. -/
def sample_half_other : Array (value_t sample_collab) :=
  { type := .DECIMAL_ELEM
    buffer := fun i => if i = 0 then { value := .decimal 8, exist := true }
                       else { value := .decimal 0, exist := false }
    stack := { begin := 0, end_ := 2, top := 1 }
    size := 2 }

/-- Sample printers: the two doubles of the example program as `"%lf"` writes
them, lists between `#L[ ` and `]`, big integers in decimal. -/
def sample_printers : Printers sample_collab where
  printf_lf := fun d =>
    if d.bits = 4618114906895459287 then "5.710000"
    else if d.bits = 4608218246714312622 then "1.230000"
    else "0.000000"
  print_list := fun (l : List Int) => "#L[ " ++ concat (l.map (fun x => printf_d x ++ " ")) ++ "]"
  print_tree := fun _ => "#T[ ]"
  print_hashtab := fun _ => "#H[ ]"
  print_bigint := fun (b : Nat) => toString b

/-- A list container of capacity 3 whose cells 0 and 2 are present. -/
def sample_two_lists : Array (value_t sample_collab) :=
  { type := .LIST_ELEM
    buffer := fun i => if i = 0 then { value := .list [1], exist := true }
                       else if i = 2 then { value := .list [2, 3], exist := true }
                       else { value := .null, exist := false }
    stack := { begin := 0, end_ := 3, top := 0 }
    size := 3 }

/-- An array container of capacity 2 whose only present cell, index 1, holds the
list container `sample_two_lists`. -/
def sample_nested : Array (value_t sample_collab) :=
  { type := .ARRAY_ELEM
    buffer := fun i => if i = 1 then { value := .array sample_two_lists, exist := true }
                       else { value := .null, exist := false }
    stack := { begin := 0, end_ := 2, top := 0 }
    size := 2 }

/-- The fresh list container after `set_array` stored the list `[1]` at index 0. -/
def sample_list_set : Array (value_t sample_collab) :=
  (set_array sample_lists 0 (.list [1])).2

/-- The fresh list container after `push_stack` of the list `[1]` and `del_array`
at index 0: the window is `[0, 1)` and its only cell is absent. -/
def sample_list_deleted : Array (value_t sample_collab) :=
  (del_array (push_stack sample_lists (.list [1])).2 0).2

theorem new_array_cells_of_fits {n : Nat} (h : n * sizeof_array_value < SIZE_MOD) :
    new_array_cells n = n := by
  unfold new_array_cells
  rw [Nat.mod_eq_of_lt h]
  exact Nat.mul_div_cancel n (by decide)

theorem new_array_some {C : Collab} (memory : Nat → array_value (value_t C)) (n : Nat)
    (kind : vtype_t) (a : Array (value_t C)) (h : new_array C memory n kind = some a) :
    a.type = kind ∧ a.size = n ∧ a.stack = { begin := 0, end_ := n, top := 0 } ∧
    ∀ i, a.buffer i =
      if i < new_array_cells n then { value := zero_value C kind, exist := false }
      else memory i := by
  cases kind <;> simp only [new_array] at h <;> cases h <;>
    exact ⟨rfl, rfl, rfl, fun _ => rfl⟩

/-- A container in the state `new_array` leaves is what `new_array` returns for
its capacity and kind, on memory that held its cells past the block. -/
theorem new_array_fresh (C : Collab) (a : Array (value_t C))
    (hk : a.type ∈ supported_kinds) (hfit : a.size * sizeof_array_value < SIZE_MOD)
    (hst : a.stack = { begin := 0, end_ := a.size, top := 0 })
    (hz : ∀ i, i < a.size → a.buffer i = { value := zero_value C a.type, exist := false }) :
    new_array C a.buffer a.size a.type = some a := by
  obtain ⟨type, buffer, stack, size⟩ := a
  have hbuf : (fun i => if i < new_array_cells size then
      ({ value := zero_value C type, exist := false } : array_value (value_t C))
      else buffer i) = buffer := by
    funext i
    rw [new_array_cells_of_fits hfit]
    by_cases hi : i < size
    · rw [if_pos hi]; exact (hz i hi).symm
    · rw [if_neg hi]
  have hst2 : stack = { begin := 0, end_ := size, top := 0 } := hst
  subst hst2
  cases type <;> first
    | (unfold new_array; simp only []; rw [hbuf])
    | (simp [supported_kinds] at hk)

/-- C1, amended: for a capacity `n` (a `size_t`), `new_array n kind` returns no
container exactly when `kind` is not one of the eight supported kinds; a
container it returns has size `n`, kind `kind`, window `begin = 0`,
`end = n`, `top = 0`, and so `size_stack` is `0`; when
`n * sizeof(array_value)` does not exceed the range of `size_t` every cell
below `n` is absent.  In general the cells of the zeroed block are absent and
the memory past the block is as it was. -/
theorem new_array_spec (C : Collab) (memory : Nat → array_value (value_t C)) (n : Nat)
    (kind : vtype_t) (_hn : n < SIZE_MOD) :
    (new_array C memory n kind = none ↔ kind ∉ supported_kinds) ∧
    (kind ∈ supported_kinds → ∃ a, new_array C memory n kind = some a) ∧
    ∀ a, new_array C memory n kind = some a →
      a.size = n ∧ a.type = kind ∧
      (n * sizeof_array_value < SIZE_MOD → ∀ i, i < n → (a.buffer i).exist = false) ∧
      (∀ i, i < new_array_cells n → (a.buffer i).exist = false) ∧
      (∀ i, new_array_cells n ≤ i → a.buffer i = memory i) ∧
      a.stack.begin = 0 ∧ a.stack.end_ = n ∧ a.stack.top = 0 ∧ size_stack a = 0 := by
  refine ⟨?_, ?_, ?_⟩
  · cases kind <;> simp [new_array, supported_kinds]
  · cases kind <;> simp [new_array, supported_kinds]
  · intro a h
    obtain ⟨k1, k2, k3, k4⟩ := new_array_some memory n kind a h
    have hblock : ∀ i, i < new_array_cells n → (a.buffer i).exist = false := by
      intro i hi
      rw [k4 i, if_pos hi]
    refine ⟨k2, k1, ?_, hblock, ?_, by rw [k3], by rw [k3], by rw [k3], ?_⟩
    · intro hfit i hi
      exact hblock i (by rw [new_array_cells_of_fits hfit]; exact hi)
    · intro i hi
      rw [k4 i, if_neg (by omega)]
    · unfold size_stack
      rw [k3]
      rfl

/-- Witness of the amended C1: a list container of capacity 3, and a refused
kind. -/
theorem new_array_spec_witness :
    new_array sample_collab sample_lists.buffer 3 .LIST_ELEM = some sample_lists ∧
    3 < SIZE_MOD ∧ 3 * sizeof_array_value < SIZE_MOD ∧
    (sample_lists.size = 3 ∧ sample_lists.type = .LIST_ELEM ∧
      (∀ i, i < 3 → (sample_lists.buffer i).exist = false) ∧
      sample_lists.stack.begin = 0 ∧ sample_lists.stack.end_ = 3 ∧
      sample_lists.stack.top = 0 ∧ size_stack sample_lists = 0) ∧
    new_array sample_collab sample_memory 3 (.OTHER 9) = none :=
  ⟨new_array_fresh sample_collab sample_lists (by decide) (by decide) rfl (fun _ _ => rfl),
    by decide, by decide,
    ⟨((new_array_spec sample_collab sample_lists.buffer 3 .LIST_ELEM (by decide)).2.2 sample_lists
        (new_array_fresh sample_collab sample_lists (by decide) (by decide) rfl
          (fun _ _ => rfl))).1,
      ((new_array_spec sample_collab sample_lists.buffer 3 .LIST_ELEM (by decide)).2.2 sample_lists
        (new_array_fresh sample_collab sample_lists (by decide) (by decide) rfl
          (fun _ _ => rfl))).2.1,
      ((new_array_spec sample_collab sample_lists.buffer 3 .LIST_ELEM (by decide)).2.2 sample_lists
        (new_array_fresh sample_collab sample_lists (by decide) (by decide) rfl
          (fun _ _ => rfl))).2.2.1 (by decide),
      ((new_array_spec sample_collab sample_lists.buffer 3 .LIST_ELEM (by decide)).2.2 sample_lists
        (new_array_fresh sample_collab sample_lists (by decide) (by decide) rfl
          (fun _ _ => rfl))).2.2.2.2.2⟩,
    (new_array_spec sample_collab sample_memory 3 (.OTHER 9) (by decide)).1.mpr (by decide)⟩

/-- C1, as stated, fails: for the capacity `2 ^ 60` the product
`size * sizeof(array_value)` is `2 ^ 64`, which is `0` in `size_t`, so the
block holds no cell and nothing is zeroed; `new_array` returns a container of
size `2 ^ 60` whose cell 0 is memory past the block, here with a set flag. -/
theorem new_array_short_block :
    1152921504606846976 < SIZE_MOD ∧
    1152921504606846976 * sizeof_array_value % SIZE_MOD = 0 ∧
    new_array_cells 1152921504606846976 = 0 ∧
    ∃ a, new_array sample_collab sample_memory 1152921504606846976 .DECIMAL_ELEM = some a ∧
      a.size = 1152921504606846976 ∧ (a.buffer 0).exist = true := by
  have hc : new_array_cells 1152921504606846976 = 0 := by
    unfold new_array_cells sizeof_array_value SIZE_MOD; norm_num
  refine ⟨by decide, by unfold sizeof_array_value SIZE_MOD; norm_num, hc, _, rfl, rfl, ?_⟩
  show (if 0 < new_array_cells 1152921504606846976 then
      ({ value := zero_value sample_collab .DECIMAL_ELEM, exist := false } :
        array_value (value_t sample_collab))
    else sample_memory 0).exist = true
  rw [hc, if_neg (Nat.lt_irrefl 0)]
  rfl

/-! ### Arithmetic on `size_t` and `int32_t` inside their ranges -/

theorem size_t_sub_eq_mod {a b : Nat} (ha : a < SIZE_MOD) (hb : b < SIZE_MOD) :
    size_t_sub a b = (a + SIZE_MOD - b) % SIZE_MOD := by
  unfold size_t_sub SIZE_MOD at *; split <;> omega

theorem size_t_pred_eq_mod {a : Nat} (ha : a < SIZE_MOD) :
    size_t_pred a = (a + SIZE_MOD - 1) % SIZE_MOD := by
  unfold size_t_pred SIZE_MOD at *; split <;> omega

theorem size_t_succ_of_lt {a : Nat} (h : a + 1 < SIZE_MOD) : size_t_succ a = a + 1 := by
  unfold size_t_succ; exact Nat.mod_eq_of_lt h

theorem size_t_pred_of_pos {a : Nat} (h0 : 0 < a) : size_t_pred a = a - 1 := by
  unfold size_t_pred; rw [if_neg (by omega)]

theorem size_t_sub_of_le {a b : Nat} (hb : b ≤ a) : size_t_sub a b = a - b := by
  unfold size_t_sub; rw [if_pos hb]

theorem int32_t_of_in_range {x : Int} (h : -(2 ^ 31) ≤ x ∧ x < 2 ^ 31) : int32_t_of x = x := by
  unfold int32_t_of; omega

/-- What `_set_node_array` stores for an argument of the kind of the container is
the argument. -/
theorem _set_node_array_value {C : Collab} (a : Array (value_t C)) (i : Nat) (v : value_t C)
    (hk : has_kind v a.type = true) :
    ((_set_node_array a i v).buffer i) = { value := v, exist := true } := by
  unfold _set_node_array
  cases v <;> cases ht : a.type <;> simp_all [has_kind, Function.update_same]
  exact int32_t_of_in_range hk

theorem _set_node_array_exist {C : Collab} (a : Array (value_t C)) (i : Nat) (v : value_t C) :
    ((_set_node_array a i v).buffer i).exist = true := by
  simp [_set_node_array, Function.update_same]

theorem _set_node_array_other {C : Collab} (a : Array (value_t C)) (i j : Nat) (v : value_t C)
    (hj : j ≠ i) : (_set_node_array a i v).buffer j = a.buffer j := by
  simp [_set_node_array, Function.update_noteq hj]

theorem _set_node_array_frame {C : Collab} (a : Array (value_t C)) (i : Nat) (v : value_t C) :
    (_set_node_array a i v).type = a.type ∧ (_set_node_array a i v).stack = a.stack ∧
    (_set_node_array a i v).size = a.size := by
  simp [_set_node_array]

/-- C2: for an index below the capacity and a value of the kind of the container,
`set_array` returns `0`, the cell is present afterwards and `get_array` on it
returns the value that was set; nothing is assumed on the cell before the
call, so it may have been absent or present. -/
theorem set_array_get_array {C : Collab} (a : Array (value_t C)) (i : Nat) (v : value_t C)
    (hi : i < a.size) (hk : has_kind v a.type = true) :
    (set_array a i v).1 = 0 ∧ ((set_array a i v).2.buffer i).exist = true ∧
    get_array (set_array a i v).2 i = some v := by
  have hn : ¬ i ≥ a.size := by omega
  have hsz := (_set_node_array_frame a i v).2.2
  simp only [set_array, hn, if_false, get_array, hsz, _set_node_array_value a i v hk]
  simp

/-- Witness of C2: a list stored at index 1 of a fresh list container of size 3. -/
theorem set_array_get_array_witness :
    new_array sample_collab sample_lists.buffer 3 .LIST_ELEM = some sample_lists ∧
    1 < sample_lists.size ∧
      get_array (set_array sample_lists 1 (.list [5, 7])).2 1 = some (.list [5, 7]) :=
  ⟨new_array_fresh sample_collab sample_lists (by decide) (by decide) rfl (fun _ _ => rfl),
    by decide,
    (set_array_get_array sample_lists 1 (.list [5, 7]) (by decide) rfl).2.2⟩

/-! ### `push_stack`, `pop_stack`, `set_stack` -/

theorem push_stack_of_ne {C : Collab} (a : Array (value_t C)) (v : value_t C)
    (h : a.stack.top ≠ a.stack.end_) :
    push_stack a v =
      (0, { _set_node_array a a.stack.top v with
            stack := { a.stack with top := size_t_succ a.stack.top } }) := by
  simp [push_stack, h, (_set_node_array_frame a a.stack.top v).2.1]

theorem pop_stack_of_ne {C : Collab} (a : Array (value_t C))
    (h : a.stack.top ≠ a.stack.begin) :
    pop_stack a =
      (some (a.buffer (size_t_pred a.stack.top)).value,
       { a with stack := { a.stack with top := size_t_pred a.stack.top } }) := by
  simp [pop_stack, h]

/-- C4: `push_stack` returns `1` exactly when `top == end` and then leaves the
container as it was; otherwise it returns `0`, the cell at the old `top` is
present and holds the value (a value of the kind of the container), `top`
grows by one and `size_stack` with it (under the window invariant, capacity a
`size_t`), `begin` and `end` keep their values, and every other cell, the kind
and the capacity are unchanged. -/
theorem push_stack_spec {C : Collab} (a : Array (value_t C)) (v : value_t C) :
    ((push_stack a v).1 = 1 ↔ a.stack.top = a.stack.end_) ∧
    (a.stack.top = a.stack.end_ → (push_stack a v).2 = a) ∧
    (a.stack.top ≠ a.stack.end_ →
      (push_stack a v).1 = 0 ∧
      ((push_stack a v).2.buffer a.stack.top).exist = true ∧
      (has_kind v a.type = true → ((push_stack a v).2.buffer a.stack.top).value = v) ∧
      (window_ok a → a.size < SIZE_MOD →
        (push_stack a v).2.stack.top = a.stack.top + 1 ∧
        size_stack (push_stack a v).2 = size_stack a + 1) ∧
      (push_stack a v).2.stack.begin = a.stack.begin ∧
      (push_stack a v).2.stack.end_ = a.stack.end_ ∧
      (∀ j, j ≠ a.stack.top → (push_stack a v).2.buffer j = a.buffer j) ∧
      (push_stack a v).2.type = a.type ∧ (push_stack a v).2.size = a.size) := by
  refine ⟨?_, ?_, ?_⟩
  · by_cases h : a.stack.top = a.stack.end_ <;> simp [push_stack, h]
  · intro h; simp [push_stack, h]
  · intro h
    rw [push_stack_of_ne a v h]
    refine ⟨rfl, _set_node_array_exist a a.stack.top v, ?_, ?_, rfl, rfl, ?_,
      (_set_node_array_frame a a.stack.top v).1, (_set_node_array_frame a a.stack.top v).2.2⟩
    · intro hk
      show ((_set_node_array a a.stack.top v).buffer a.stack.top).value = v
      rw [_set_node_array_value a _ v hk]
    · intro hw hs
      obtain ⟨h1, h2, h3⟩ := hw
      have hlt : a.stack.top + 1 < SIZE_MOD := by omega
      refine ⟨size_t_succ_of_lt hlt, ?_⟩
      show size_t_sub (size_t_succ a.stack.top) a.stack.begin = size_t_sub a.stack.top a.stack.begin + 1
      rw [size_t_succ_of_lt hlt, size_t_sub_of_le (by omega), size_t_sub_of_le h1]
      omega
    · intro j hj
      exact _set_node_array_other a _ j v hj

/-- Witness of C4: a push on the half-full decimal container. -/
theorem push_stack_spec_witness :
    sample_half_full.stack.top ≠ sample_half_full.stack.end_ ∧
    has_kind (.decimal 9 : value_t sample_collab) sample_half_full.type = true ∧
    window_ok sample_half_full ∧ sample_half_full.size < SIZE_MOD ∧
    (push_stack sample_half_full (.decimal 9)).1 = 0 ∧
    ((push_stack sample_half_full (.decimal 9)).2.buffer 1).value = .decimal 9 ∧
    (push_stack sample_half_full (.decimal 9)).2.stack.top = 2 :=
  ⟨by decide, rfl, by decide, by decide,
    ((push_stack_spec sample_half_full (.decimal 9)).2.2 (by decide)).1,
    ((push_stack_spec sample_half_full (.decimal 9)).2.2 (by decide)).2.2.1 rfl,
    (((push_stack_spec sample_half_full (.decimal 9)).2.2 (by decide)).2.2.2.1
      (by decide) (by decide)).1⟩

theorem pop_stack_of_eq {C : Collab} (a : Array (value_t C))
    (h : a.stack.top = a.stack.begin) : pop_stack a = (none, a) := by
  unfold pop_stack; rw [if_pos h]

theorem push_stack_of_eq {C : Collab} (a : Array (value_t C)) (v : value_t C)
    (h : a.stack.top = a.stack.end_) : push_stack a v = (1, a) := by
  unfold push_stack; rw [if_pos h]

/-- C5: `pop_stack` fails (returns no value) exactly when `top == begin` and then
leaves the container as it was; it never changes a cell, `begin`, `end`, the
kind or the capacity; when it succeeds it returns the value stored at the new
`top`, which under the window invariant is the old `top` minus one, and
`get_array` on that index returns the popped value with the presence flag of
the cell untouched.  A pop right after a successful push returns the pushed
value, restores the window and leaves the cell present. -/
theorem pop_stack_spec {C : Collab} (a : Array (value_t C)) :
    ((pop_stack a).1 = none ↔ a.stack.top = a.stack.begin) ∧
    (a.stack.top = a.stack.begin → (pop_stack a).2 = a) ∧
    ((pop_stack a).2.buffer = a.buffer ∧ (pop_stack a).2.stack.begin = a.stack.begin ∧
      (pop_stack a).2.stack.end_ = a.stack.end_ ∧ (pop_stack a).2.type = a.type ∧
      (pop_stack a).2.size = a.size) ∧
    (a.stack.top ≠ a.stack.begin →
      (pop_stack a).1 = some (a.buffer (pop_stack a).2.stack.top).value ∧
      (window_ok a → a.size < SIZE_MOD →
        (pop_stack a).2.stack.top + 1 = a.stack.top ∧
        get_array (pop_stack a).2 (a.stack.top - 1) = (pop_stack a).1 ∧
        ((pop_stack a).2.buffer (a.stack.top - 1)).exist =
          (a.buffer (a.stack.top - 1)).exist)) ∧
    (∀ v, a.stack.top ≠ a.stack.end_ → window_ok a → a.size < SIZE_MOD →
      has_kind v a.type = true →
      (pop_stack (push_stack a v).2).1 = some v ∧
      (pop_stack (push_stack a v).2).2.stack = a.stack ∧
      ((pop_stack (push_stack a v).2).2.buffer a.stack.top).exist = true ∧
      get_array (pop_stack (push_stack a v).2).2 a.stack.top = some v) := by
  refine ⟨?_, ?_, ?_, ?_, ?_⟩
  · by_cases h : a.stack.top = a.stack.begin
    · rw [pop_stack_of_eq a h]; exact ⟨(fun _ => h), (fun _ => rfl)⟩
    · rw [pop_stack_of_ne a h]; exact ⟨(fun h0 => by cases h0), (fun h0 => absurd h0 h)⟩
  · intro h; rw [pop_stack_of_eq a h]
  · by_cases h : a.stack.top = a.stack.begin
    · rw [pop_stack_of_eq a h]; exact ⟨rfl, rfl, rfl, rfl, rfl⟩
    · rw [pop_stack_of_ne a h]; exact ⟨rfl, rfl, rfl, rfl, rfl⟩
  · intro h
    rw [pop_stack_of_ne a h]
    refine ⟨rfl, ?_⟩
    rintro ⟨h1, h2, h3⟩ hs
    have hp : size_t_pred a.stack.top = a.stack.top - 1 :=
      size_t_pred_of_pos (by omega)
    have hlt : ¬ a.stack.top - 1 ≥ a.size := by omega
    refine ⟨?_, ?_, rfl⟩
    · show size_t_pred a.stack.top + 1 = a.stack.top
      rw [hp]; omega
    · show get_array _ _ = some (a.buffer (size_t_pred a.stack.top)).value
      rw [hp]; unfold get_array
      rw [if_neg hlt]
  · rintro v hne ⟨h1, h2, h3⟩ hs hk
    have hlt : a.stack.top + 1 < SIZE_MOD := by omega
    have hsucc := size_t_succ_of_lt hlt
    have hpred : size_t_pred (a.stack.top + 1) = a.stack.top := by
      rw [size_t_pred_of_pos (by omega)]; omega
    have hne2 : (push_stack a v).2.stack.top ≠ (push_stack a v).2.stack.begin := by
      rw [push_stack_of_ne a v hne]
      show size_t_succ a.stack.top ≠ a.stack.begin
      rw [hsucc]; omega
    rw [pop_stack_of_ne _ hne2, push_stack_of_ne a v hne]
    have hcell := _set_node_array_value a a.stack.top v hk
    have hsz := (_set_node_array_frame a a.stack.top v).2.2
    have hlt2 : ¬ a.stack.top ≥ a.size := by omega
    refine ⟨?_, ?_, ?_, ?_⟩
    · show some ((_set_node_array a a.stack.top v).buffer
        (size_t_pred (size_t_succ a.stack.top))).value = some v
      rw [hsucc, hpred, hcell]
    · show ({ begin := a.stack.begin, end_ := a.stack.end_,
              top := size_t_pred (size_t_succ a.stack.top) } : array_stack) = a.stack
      rw [hsucc, hpred]
    · show ((_set_node_array a a.stack.top v).buffer a.stack.top).exist = true
      rw [hcell]
    · unfold get_array
      show (if a.stack.top ≥ (_set_node_array a a.stack.top v).size then none
        else some ((_set_node_array a a.stack.top v).buffer a.stack.top).value) = some v
      rw [hsz, if_neg hlt2, hcell]

/-- Witness of C5: a pop on the half-full decimal container, and a pop after a
push on it. -/
theorem pop_stack_spec_witness :
    sample_half_full.stack.top ≠ sample_half_full.stack.begin ∧
    sample_half_full.stack.top ≠ sample_half_full.stack.end_ ∧
    window_ok sample_half_full ∧ sample_half_full.size < SIZE_MOD ∧
    (pop_stack sample_half_full).1 = some (.decimal 7) ∧
    get_array (pop_stack sample_half_full).2 0 = (pop_stack sample_half_full).1 ∧
    (pop_stack (push_stack sample_half_full (.decimal 9)).2).1 = some (.decimal 9) :=
  ⟨by decide, by decide, by decide, by decide,
    ((pop_stack_spec sample_half_full).2.2.2.1 (by decide)).1,
    (((pop_stack_spec sample_half_full).2.2.2.1 (by decide)).2 (by decide) (by decide)).2.1,
    ((pop_stack_spec sample_half_full).2.2.2.2 (.decimal 9) (by decide) (by decide)
      (by decide) rfl).1⟩

/-- C6: `set_stack` tests `end > size`, then `begin > end`, then
`top > end || top < begin`, and returns `1`, `2`, `3` for the first test that
holds and `0` when none does; it returns `0` exactly for the triples with
`begin ≤ top ≤ end ≤ size`, and then the window is `(begin, end, top)` while the
buffer, the kind and the capacity are unchanged; on a non-zero status the
container is unchanged. -/
theorem set_stack_spec {V : Type} (a : Array V) (top begin end_ : Nat) :
    ((set_stack a top begin end_).1 =
      if end_ > a.size then 1 else if begin > end_ then 2
      else if top > end_ ∨ top < begin then 3 else 0) ∧
    ((set_stack a top begin end_).1 = 0 ↔ begin ≤ top ∧ top ≤ end_ ∧ end_ ≤ a.size) ∧
    ((set_stack a top begin end_).1 = 0 →
      (set_stack a top begin end_).2.stack = { begin := begin, end_ := end_, top := top } ∧
      (set_stack a top begin end_).2.buffer = a.buffer ∧
      (set_stack a top begin end_).2.type = a.type ∧
      (set_stack a top begin end_).2.size = a.size) ∧
    ((set_stack a top begin end_).1 ≠ 0 → (set_stack a top begin end_).2 = a) := by
  unfold set_stack
  by_cases h1 : end_ > a.size
  · rw [if_pos h1, if_pos h1]
    exact ⟨rfl, ⟨(fun h => by cases h), (fun h => by omega)⟩, (fun h => by cases h), (fun _ => rfl)⟩
  · rw [if_neg h1, if_neg h1]
    by_cases h2 : begin > end_
    · rw [if_pos h2, if_pos h2]
      exact ⟨rfl, ⟨(fun h => by cases h), (fun h => by omega)⟩, (fun h => by cases h),
        (fun _ => rfl)⟩
    · rw [if_neg h2, if_neg h2]
      by_cases h3 : top > end_ ∨ top < begin
      · rw [if_pos h3, if_pos h3]
        exact ⟨rfl, ⟨(fun h => by cases h), (fun h => by omega)⟩, (fun h => by cases h),
          (fun _ => rfl)⟩
      · rw [if_neg h3, if_neg h3]
        exact ⟨rfl, ⟨(fun _ => by omega), (fun _ => rfl)⟩, (fun _ => ⟨rfl, rfl, rfl, rfl⟩),
          (fun h => absurd rfl h)⟩

/-- Witness of C6: the window `(begin, end, top) = (1, 3, 2)` on the list
container of capacity 3. -/
theorem set_stack_spec_witness :
    (set_stack sample_lists 2 1 3).1 = 0 ∧
    (set_stack sample_lists 2 1 3).2.stack = { begin := 1, end_ := 3, top := 2 } :=
  ⟨rfl, ((set_stack_spec sample_lists 2 1 3).2.2.1 rfl).1⟩

/-- C7, as stated, fails: with `begin = 0` and `end = 3` on a container of
capacity 3, `top = 3` lies outside `[0, 3)` and `set_stack` accepts it. -/
theorem set_stack_top_eq_end_accepted :
    (3 ≤ sample_lists.size ∧ 0 ≤ 3 ∧ ¬ (0 ≤ 3 ∧ 3 < 3)) ∧
    (set_stack sample_lists 3 0 3).1 = 0 ∧ (set_stack sample_lists 3 0 3).1 ≠ 3 := by
  decide

/-- C7, amended: for `end ≤ size` and `begin ≤ end`, `set_stack` returns `3`
exactly for the `top` outside the closed range `[begin, end]` and returns `0`
exactly for the `top` with `begin ≤ top ≤ end`; `top == end` is accepted. -/
theorem set_stack_top_range {V : Type} (a : Array V) (top begin end_ : Nat)
    (he : end_ ≤ a.size) (hb : begin ≤ end_) :
    ((set_stack a top begin end_).1 = 3 ↔ (top < begin ∨ end_ < top)) ∧
    ((set_stack a top begin end_).1 = 0 ↔ (begin ≤ top ∧ top ≤ end_)) ∧
    (set_stack a end_ begin end_).1 = 0 := by
  have h1 : ¬ end_ > a.size := by omega
  have h2 : ¬ begin > end_ := by omega
  have h4 : ¬ (end_ > end_ ∨ end_ < begin) := by omega
  have h5 : (set_stack a end_ begin end_).1 = 0 := by
    unfold set_stack; rw [if_neg h1, if_neg h2, if_neg h4]
  refine ⟨?_, ?_, h5⟩ <;> unfold set_stack <;> rw [if_neg h1, if_neg h2]
  · by_cases h3 : top > end_ ∨ top < begin
    · rw [if_pos h3]; exact ⟨(fun _ => by omega), (fun _ => rfl)⟩
    · rw [if_neg h3]; exact ⟨(fun h => by cases h), (fun h => by omega)⟩
  · by_cases h3 : top > end_ ∨ top < begin
    · rw [if_pos h3]; exact ⟨(fun h => by cases h), (fun h => by omega)⟩
    · rw [if_neg h3]; exact ⟨(fun _ => by omega), (fun _ => rfl)⟩

/-- Witness of the amended C7 on the list container of capacity 3. -/
theorem set_stack_top_range_witness :
    3 ≤ sample_lists.size ∧ 1 ≤ 3 ∧ (set_stack sample_lists 3 1 3).1 = 0 :=
  ⟨by decide, by decide, (set_stack_top_range sample_lists 3 1 3 (by decide) (by decide)).2.2⟩

/-! ### Sequences of pushes and pops -/

theorem pop_seq_succ {C : Collab} (n : Nat) : ∀ (a : Array (value_t C)),
    pop_seq a (n + 1) =
      ((pop_seq a n).1 ++ [(pop_stack (pop_seq a n).2).1], (pop_stack (pop_seq a n).2).2) := by
  induction n with
  | zero => intro a; rfl
  | succ n ih =>
    intro a
    have h := ih (pop_stack a).2
    show ((pop_stack a).1 :: (pop_seq (pop_stack a).2 (n + 1)).1,
        (pop_seq (pop_stack a).2 (n + 1)).2) = _
    rw [h]
    rfl

/-- A run of pushes that fits between `top` and `end`: every push succeeds, `top`
advances by the number of values, the cells below the old `top` and the kind
are untouched. -/
theorem push_seq_fits {C : Collab} (vs : List (value_t C)) : ∀ (a : Array (value_t C)),
    a.stack.top + vs.length ≤ a.stack.end_ → a.stack.end_ < SIZE_MOD →
    (push_seq a vs).1 = List.replicate vs.length 0 ∧
    (push_seq a vs).2.stack = { a.stack with top := a.stack.top + vs.length } ∧
    (∀ j, j < a.stack.top → (push_seq a vs).2.buffer j = a.buffer j) ∧
    (push_seq a vs).2.type = a.type ∧ (push_seq a vs).2.size = a.size := by
  induction vs with
  | nil => intro a _ _; exact ⟨rfl, rfl, (fun _ _ => rfl), rfl, rfl⟩
  | cons v vs ih =>
    intro a h1 h2
    simp only [List.length_cons] at h1
    have hne : a.stack.top ≠ a.stack.end_ := by omega
    have hsucc : size_t_succ a.stack.top = a.stack.top + 1 := size_t_succ_of_lt (by omega)
    have hp := push_stack_of_ne a v hne
    rw [hsucc] at hp
    have hstack : (push_stack a v).2.stack = { a.stack with top := a.stack.top + 1 } := by
      rw [hp]
    have hbuf : ∀ j, j ≠ a.stack.top → (push_stack a v).2.buffer j = a.buffer j := by
      intro j hj; rw [hp]; exact _set_node_array_other a a.stack.top j v hj
    have htype : (push_stack a v).2.type = a.type := by
      rw [hp]; exact (_set_node_array_frame a a.stack.top v).1
    have hsize : (push_stack a v).2.size = a.size := by
      rw [hp]; exact (_set_node_array_frame a a.stack.top v).2.2
    have hst : (push_stack a v).1 = 0 := by rw [hp]
    obtain ⟨i1, i2, i3, i4, i5⟩ := ih (push_stack a v).2
      (by rw [hstack]; show a.stack.top + 1 + vs.length ≤ a.stack.end_; omega)
      (by rw [hstack]; exact h2)
    refine ⟨?_, ?_, ?_, ?_, ?_⟩
    · show (push_stack a v).1 :: (push_seq (push_stack a v).2 vs).1 = _
      rw [i1, hst]; rfl
    · show (push_seq (push_stack a v).2 vs).2.stack = _
      rw [i2, hstack]
      show ({ begin := a.stack.begin, end_ := a.stack.end_,
              top := a.stack.top + 1 + vs.length } : array_stack) = _
      rw [List.length_cons, Nat.add_assoc, Nat.add_comm 1]
    · intro j hj
      show (push_seq (push_stack a v).2 vs).2.buffer j = _
      rw [i3 j (by rw [hstack]; show j < a.stack.top + 1; omega), hbuf j (by omega)]
    · show (push_seq (push_stack a v).2 vs).2.type = _
      rw [i4, htype]
    · show (push_seq (push_stack a v).2 vs).2.size = _
      rw [i5, hsize]

/-- Pushing a run of values that fits and popping as many: the pops return the
values in reverse order and restore the window; the buffer is the one the
pushes left. -/
theorem push_seq_pop_seq_aux {C : Collab} (vs : List (value_t C)) :
    ∀ (a : Array (value_t C)), a.stack.begin ≤ a.stack.top →
    a.stack.top + vs.length ≤ a.stack.end_ → a.stack.end_ < SIZE_MOD →
    (∀ v, v ∈ vs → has_kind v a.type = true) →
    (pop_seq (push_seq a vs).2 vs.length).1 = vs.reverse.map some ∧
    (pop_seq (push_seq a vs).2 vs.length).2.stack = a.stack ∧
    (pop_seq (push_seq a vs).2 vs.length).2.buffer = (push_seq a vs).2.buffer := by
  induction vs with
  | nil => intro a _ _ _ _; exact ⟨rfl, rfl, rfl⟩
  | cons v vs ih =>
    intro a h0 h1 h2 hk
    simp only [List.length_cons] at h1
    have hne : a.stack.top ≠ a.stack.end_ := by omega
    have hsucc : size_t_succ a.stack.top = a.stack.top + 1 := size_t_succ_of_lt (by omega)
    have hp := push_stack_of_ne a v hne
    rw [hsucc] at hp
    have hstack : (push_stack a v).2.stack = { a.stack with top := a.stack.top + 1 } := by
      rw [hp]
    have htype : (push_stack a v).2.type = a.type := by
      rw [hp]; exact (_set_node_array_frame a a.stack.top v).1
    have hcell : (push_stack a v).2.buffer a.stack.top = { value := v, exist := true } := by
      rw [hp]; exact _set_node_array_value a a.stack.top v (hk v (List.mem_cons_self v vs))
    have hfit1 : (push_stack a v).2.stack.top + vs.length ≤ (push_stack a v).2.stack.end_ := by
      rw [hstack]; show a.stack.top + 1 + vs.length ≤ a.stack.end_; omega
    have hfit2 : (push_stack a v).2.stack.end_ < SIZE_MOD := by rw [hstack]; exact h2
    obtain ⟨i1, i2, i3⟩ := ih (push_stack a v).2
      (by rw [hstack]; show a.stack.begin ≤ a.stack.top + 1; omega) hfit1 hfit2
      (by intro w hw; rw [htype]; exact hk w (List.mem_cons_of_mem v hw))
    have hbelow := (push_seq_fits vs (push_stack a v).2 hfit1 hfit2).2.2.1 a.stack.top
      (by rw [hstack]; show a.stack.top < a.stack.top + 1; omega)
    have hX : (push_seq a (v :: vs)).2 = (push_seq (push_stack a v).2 vs).2 := rfl
    rw [hX, List.length_cons, pop_seq_succ]
    have htop : (pop_seq (push_seq (push_stack a v).2 vs).2 vs.length).2.stack.top
        ≠ (pop_seq (push_seq (push_stack a v).2 vs).2 vs.length).2.stack.begin := by
      rw [i2, hstack]; show a.stack.top + 1 ≠ a.stack.begin; omega
    rw [pop_stack_of_ne _ htop]
    have hpred : size_t_pred (a.stack.top + 1) = a.stack.top := by
      rw [size_t_pred_of_pos (by omega)]; omega
    refine ⟨?_, ?_, ?_⟩
    · show (pop_seq (push_seq (push_stack a v).2 vs).2 vs.length).1 ++
        [some ((pop_seq (push_seq (push_stack a v).2 vs).2 vs.length).2.buffer
          (size_t_pred (pop_seq (push_seq (push_stack a v).2 vs).2 vs.length).2.stack.top)).value]
        = _
      rw [i1, i2, i3, hstack]
      show _ ++ [some ((push_seq (push_stack a v).2 vs).2.buffer
        (size_t_pred (a.stack.top + 1))).value] = _
      rw [hpred, hbelow, hcell]
      simp
    · show ({ (pop_seq (push_seq (push_stack a v).2 vs).2 vs.length).2.stack with
          top := size_t_pred
            (pop_seq (push_seq (push_stack a v).2 vs).2 vs.length).2.stack.top } : array_stack)
        = a.stack
      rw [i2, hstack]
      show ({ begin := a.stack.begin, end_ := a.stack.end_,
              top := size_t_pred (a.stack.top + 1) } : array_stack) = a.stack
      rw [hpred]
    · exact i3

/-- C3, amended: under the window invariant, for values of the kind of the
container and a count `n` of at most `end − top`, the `n` pushes all succeed,
the `n` pops that follow return the pushed values in reverse push order, and
`top` (the whole window) is back at its original value. -/
theorem push_seq_pop_seq {C : Collab} (a : Array (value_t C)) (vs : List (value_t C))
    (hw : window_ok a) (hs : a.size < SIZE_MOD)
    (hk : ∀ v, v ∈ vs → has_kind v a.type = true)
    (hn : vs.length ≤ a.stack.end_ - a.stack.top) :
    (push_seq a vs).1 = List.replicate vs.length 0 ∧
    (pop_seq (push_seq a vs).2 vs.length).1 = vs.reverse.map some ∧
    (pop_seq (push_seq a vs).2 vs.length).2.stack.top = a.stack.top ∧
    (pop_seq (push_seq a vs).2 vs.length).2.stack = a.stack := by
  obtain ⟨h1, h2, h3⟩ := hw
  have hfit : a.stack.top + vs.length ≤ a.stack.end_ := by omega
  have hend : a.stack.end_ < SIZE_MOD := by omega
  have hA := push_seq_pop_seq_aux vs a h1 hfit hend hk
  refine ⟨(push_seq_fits vs a hfit hend).1, hA.1, ?_, hA.2.1⟩
  rw [hA.2.1]

/-- Witness of the amended C3: two pushes and two pops on the fresh decimal
container of capacity 3. -/
theorem push_seq_pop_seq_witness :
    new_array sample_collab sample_decimals.buffer 3 .DECIMAL_ELEM = some sample_decimals ∧
    window_ok sample_decimals ∧
    (pop_seq (push_seq sample_decimals [.decimal 10, .decimal 20]).2 2).1 =
      [some (.decimal 20), some (.decimal 10)] ∧
    (pop_seq (push_seq sample_decimals [.decimal 10, .decimal 20]).2 2).2.stack.top = 0 :=
  ⟨new_array_fresh sample_collab sample_decimals (by decide) (by decide) rfl
      (fun _ _ => rfl), by decide,
    (push_seq_pop_seq sample_decimals [.decimal 10, .decimal 20] (by decide) (by decide)
      (by intro v hv; simp at hv; rcases hv with rfl | rfl <;> rfl) (by decide)).2.1,
    (push_seq_pop_seq sample_decimals [.decimal 10, .decimal 20] (by decide) (by decide)
      (by intro v hv; simp at hv; rcases hv with rfl | rfl <;> rfl) (by decide)).2.2.1⟩

/-- C3, as stated, fails: on the decimal container with window `[0, 2)` and
`top = 1`, two values do not exceed `end − begin = 2`, yet the second push is
refused, the second pop returns the element that was below the pushed ones,
and `top` ends at `0` instead of `1`. -/
theorem push_seq_pop_seq_over_top :
    window_ok sample_half_full ∧
    ([.decimal 10, .decimal 20] : List (value_t sample_collab)).length ≤
      sample_half_full.stack.end_ - sample_half_full.stack.begin ∧
    has_kind (.decimal 10 : value_t sample_collab) sample_half_full.type = true ∧
    has_kind (.decimal 20 : value_t sample_collab) sample_half_full.type = true ∧
    (push_seq sample_half_full [.decimal 10, .decimal 20]).1 = [0, 1] ∧
    ((pop_seq (push_seq sample_half_full [.decimal 10, .decimal 20]).2 2).1).get? 1 =
      some (some (.decimal 7)) ∧
    sample_half_full.stack.top = 1 ∧
    (pop_seq (push_seq sample_half_full [.decimal 10, .decimal 20]).2 2).2.stack.top = 0 :=
  ⟨by decide, by decide, rfl, rfl, rfl, rfl, rfl, rfl⟩

/-! ### The loop `for_return` -/

theorem for_return_eq_none {R : Type} (body : Nat → Option R) (n : Nat) : ∀ i,
    for_return body n i = none ↔ ∀ k, k < n → body (i + k) = none := by
  induction n with
  | zero => intro i; exact ⟨(fun _ k hk => absurd hk (Nat.not_lt_zero k)), (fun _ => rfl)⟩
  | succ n ih =>
    intro i
    unfold for_return
    cases hb : body i with
    | some r =>
      refine ⟨(fun h => by cases h), (fun h => ?_)⟩
      have h0 := h 0 (Nat.succ_pos n)
      rw [Nat.add_zero, hb] at h0
      cases h0
    | none =>
      show for_return body n (i + 1) = none ↔ _
      rw [ih (i + 1)]
      constructor
      · intro h k hk
        cases k with
        | zero => exact hb
        | succ k =>
          have := h k (by omega)
          rw [Nat.add_assoc, Nat.add_comm 1] at this
          exact this
      · intro h k hk
        have := h (k + 1) (by omega)
        rw [Nat.add_assoc, Nat.add_comm 1]
        exact this

theorem for_return_first {R : Type} (body : Nat → Option R) (r : R) (n : Nat) : ∀ i k,
    k < n → (∀ j, j < k → body (i + j) = none) → body (i + k) = some r →
    for_return body n i = some r := by
  induction n with
  | zero => intro i k hk; exact absurd hk (Nat.not_lt_zero k)
  | succ n ih =>
    intro i k hk hbefore hat
    unfold for_return
    cases k with
    | zero =>
      rw [Nat.add_zero] at hat
      rw [hat]
    | succ k =>
      have h0 := hbefore 0 (Nat.succ_pos k)
      rw [Nat.add_zero] at h0
      rw [h0]
      show for_return body n (i + 1) = some r
      apply ih (i + 1) k (by omega)
      · intro j hj
        have := hbefore (j + 1) (by omega)
        rw [Nat.add_assoc, Nat.add_comm 1]
        exact this
      · rw [Nat.add_assoc, Nat.add_comm 1]
        exact hat

theorem for_return_eq_some {R : Type} (body : Nat → Option R) (r : R) (n : Nat) : ∀ i,
    for_return body n i = some r →
    ∃ k, k < n ∧ body (i + k) = some r ∧ ∀ j, j < k → body (i + j) = none := by
  induction n with
  | zero => intro i h; cases h
  | succ n ih =>
    intro i h
    unfold for_return at h
    cases hb : body i with
    | some r0 =>
      rw [hb] at h
      refine ⟨0, Nat.succ_pos n, ?_, (fun j hj => absurd hj (Nat.not_lt_zero j))⟩
      rw [Nat.add_zero, hb]
      exact h
    | none =>
      rw [hb] at h
      obtain ⟨k, hk, hat, hbefore⟩ := ih (i + 1) h
      refine ⟨k + 1, by omega, ?_, ?_⟩
      · rw [← Nat.add_assoc]
        rw [Nat.add_assoc, Nat.add_comm 1] at hat
        rw [Nat.add_assoc, Nat.add_comm k 1]
        rw [Nat.add_comm 1 k]
        exact hat
      · intro j hj
        cases j with
        | zero => exact hb
        | succ j =>
          have := hbefore j (by omega)
          rw [Nat.add_assoc, Nat.add_comm 1] at this
          exact this

/-! ### `cmp_array` -/

theorem cmp_array_eq {C : Collab} (x y : Array (value_t C)) :
    cmp_array x y =
      if x.type ≠ y.type then -1
      else if x.size ≠ y.size then -2
      else
        match for_return (fun i => cmp_array_body x.type (x.buffer i) (y.buffer i)) x.size 0 with
        | some r => r
        | none => 0 := by
  cases x; cases y; rw [cmp_array]

theorem cmp_array_body_eq {C : Collab} (type : vtype_t) (cx cy : array_value (value_t C)) :
    cmp_array_body type cx cy =
      if !cx.exist && !cy.exist then none
      else if !cx.exist || !cy.exist then some 2
      else if !(_cmp_node_array type cx.value cy.value) then some 1
      else none := by
  cases cx; cases cy; rw [cmp_array_body]

/-- The body of the loop goes on exactly when the two cells agree. -/
theorem cmp_array_body_none {C : Collab} (x y : Array (value_t C)) (i : Nat) :
    cmp_array_body x.type (x.buffer i) (y.buffer i) = none ↔ cell_agree x y i = true := by
  rw [cmp_array_body_eq]; unfold cell_agree
  cases (x.buffer i).exist <;> cases (y.buffer i).exist <;>
    cases _cmp_node_array x.type (x.buffer i).value (y.buffer i).value <;> decide

/-- When the two cells disagree the body returns `2` if exactly one is present
and `1` if both are. -/
theorem cmp_array_body_some {C : Collab} (x y : Array (value_t C)) (i : Nat)
    (h : cell_agree x y i = false) :
    cmp_array_body x.type (x.buffer i) (y.buffer i) =
      some (if (x.buffer i).exist = (y.buffer i).exist then 1 else 2) := by
  rw [cmp_array_body_eq]; unfold cell_agree at h
  revert h
  cases (x.buffer i).exist <;> cases (y.buffer i).exist <;>
    cases _cmp_node_array x.type (x.buffer i).value (y.buffer i).value <;> decide

theorem cmp_array_of_scan {C : Collab} (x y : Array (value_t C))
    (ht : x.type = y.type) (hs : x.size = y.size) :
    cmp_array x y =
      match for_return (fun i => cmp_array_body x.type (x.buffer i) (y.buffer i)) x.size 0 with
      | some r => r
      | none => 0 := by
  rw [cmp_array_eq, if_neg (not_not.mpr ht), if_neg (not_not.mpr hs)]

/-- The first index at which the two containers disagree decides the result. -/
theorem cmp_array_first_diff {C : Collab} (x y : Array (value_t C))
    (ht : x.type = y.type) (hs : x.size = y.size) (i : Nat) (hi : i < x.size)
    (hbefore : ∀ j, j < i → cell_agree x y j = true) (hat : cell_agree x y i = false) :
    cmp_array x y = if (x.buffer i).exist = (y.buffer i).exist then 1 else 2 := by
  rw [cmp_array_of_scan x y ht hs]
  have h := for_return_first (fun i => cmp_array_body x.type (x.buffer i) (y.buffer i))
    (if (x.buffer i).exist = (y.buffer i).exist then 1 else 2) x.size 0 i hi
    (by intro j hj; rw [Nat.zero_add]; exact (cmp_array_body_none x y j).mpr (hbefore j hj))
    (by rw [Nat.zero_add]; exact cmp_array_body_some x y i hat)
  rw [h]

theorem cmp_array_eq_zero {C : Collab} (x y : Array (value_t C)) :
    cmp_array x y = 0 ↔
      x.type = y.type ∧ x.size = y.size ∧ ∀ i, i < x.size → cell_agree x y i = true := by
  constructor
  · intro h
    by_cases ht : x.type = y.type
    · by_cases hs : x.size = y.size
      · refine ⟨ht, hs, ?_⟩
        rw [cmp_array_of_scan x y ht hs] at h
        cases hf : for_return (fun i => cmp_array_body x.type (x.buffer i) (y.buffer i))
            x.size 0 with
        | none =>
          intro i hi
          have := (for_return_eq_none _ x.size 0).mp hf i hi
          rw [Nat.zero_add] at this
          exact (cmp_array_body_none x y i).mp this
        | some r =>
          rw [hf] at h
          obtain ⟨k, hk, hat, _⟩ := for_return_eq_some _ r x.size 0 hf
          rw [Nat.zero_add] at hat
          have hr : r = 0 := h
          subst hr
          exfalso
          cases hag : cell_agree x y k with
          | true =>
            rw [(cmp_array_body_none x y k).mpr hag] at hat
            cases hat
          | false =>
            rw [cmp_array_body_some x y k hag] at hat
            split at hat <;> cases hat
      · rw [cmp_array_eq, if_neg (not_not.mpr ht), if_pos hs] at h
        cases h
    · rw [cmp_array_eq, if_pos ht] at h
      cases h
  · rintro ⟨ht, hs, hall⟩
    rw [cmp_array_of_scan x y ht hs]
    have hf : for_return (fun i => cmp_array_body x.type (x.buffer i) (y.buffer i))
        x.size 0 = none := by
      rw [for_return_eq_none]
      intro k hk
      rw [Nat.zero_add]
      exact (cmp_array_body_none x y k).mpr (hall k hk)
    rw [hf]

/-- A property of containers holds for all of them as soon as it holds for a
container whenever it holds for the containers stored in its cells. -/
theorem array_induction {C : Collab} {P : Array (value_t C) → Prop}
    (step : ∀ x : Array (value_t C),
      (∀ i a, (x.buffer i).value = value_t.array a → P a) → P x) :
    ∀ x, P x := by
  intro x
  refine value_t.rec_1 (C := C)
    (motive_1 := fun v => ∀ a, v = value_t.array a → P a)
    (motive_2 := P)
    (motive_3 := fun c => ∀ a, c.value = value_t.array a → P a)
    ?_ ?_ ?_ ?_ ?_ ?_ ?_ ?_ ?_ ?_ ?_ x
  · intro _ a h; cases h
  · intro _ a h; cases h
  · intro _ a h; cases h
  · intro _ a h; cases h
  · intro _ a h; cases h
  · intro _ a h; cases h
  · intro a ha b h; cases h; exact ha
  · intro _ a h; cases h
  · intro a h; cases h
  · intro type buffer stack size ih
    exact step _ (fun i a h => ih i a h)
  · intro value exist ih a h
    exact ih a h

/-! ### The scalar comparisons -/

theorem strcmp_self : ∀ a : List Nat, strcmp a a = 0
  | [] => rfl
  | a :: as => by
    unfold strcmp
    rw [if_neg (not_not.mpr rfl)]
    by_cases h : a = 0
    · rw [if_pos h]
    · rw [if_neg h]; exact strcmp_self as

theorem strcmp_zero_symm : ∀ a b : List Nat, strcmp a b = 0 ↔ strcmp b a = 0
  | [], [] => Iff.rfl
  | [], b :: bs => by unfold strcmp; omega
  | a :: as, [] => by unfold strcmp; omega
  | a :: as, b :: bs => by
    unfold strcmp
    by_cases hab : a = b
    · subst hab
      rw [if_neg (not_not.mpr rfl), if_neg (not_not.mpr rfl)]
      by_cases h : a = 0
      · rw [if_pos h, if_pos h]
      · rw [if_neg h, if_neg h]; exact strcmp_zero_symm as bs
    · rw [if_pos hab, if_pos (Ne.symm hab)]
      omega

theorem beq_zero_congr {a b : Int} (h : a = 0 ↔ b = 0) : (a == 0) = (b == 0) := by
  by_cases ha : a = 0
  · rw [ha, h.mp ha]
  · have hb : ¬ b = 0 := fun hb => ha (h.mpr hb)
    rw [beq_eq_false_iff_ne.mpr ha, beq_eq_false_iff_ne.mpr hb]

theorem int_beq_comm (a b : Int) : (a == b) = (b == a) := by
  by_cases h : a = b
  · rw [h]
  · rw [beq_eq_false_iff_ne.mpr h, beq_eq_false_iff_ne.mpr (Ne.symm h)]

theorem nat_beq_comm (a b : Nat) : (a == b) = (b == a) := by
  by_cases h : a = b
  · rw [h]
  · rw [beq_eq_false_iff_ne.mpr h, beq_eq_false_iff_ne.mpr (Ne.symm h)]

theorem double_eq_comm (a b : double) : double_eq a b = double_eq b a := by
  unfold double_eq
  rw [nat_beq_comm a.bits b.bits]
  cases a.is_nan <;> cases b.is_nan <;> cases a.is_zero <;> cases b.is_zero <;> rfl

theorem double_eq_self (a : double) (h : a.is_nan = false) : double_eq a a = true := by
  unfold double_eq
  rw [h, beq_self_eq_true]
  cases a.is_zero <;> rfl

/-! ### Symmetry and reflexivity of the per-kind comparison -/

theorem _cmp_node_array_symm {C : Collab} (hsym : collab_symm C) (type : vtype_t)
    (vx vy : value_t C)
    (hrec : ∀ a b, vx = value_t.array a → vy = value_t.array b →
      cmp_array a b = cmp_array b a) :
    _cmp_node_array type vx vy = _cmp_node_array type vy vx := by
  obtain ⟨hl, ht, hh, hb⟩ := hsym
  cases type with
  | DECIMAL_ELEM =>
    cases vx <;> cases vy <;> first | rfl | (simp only [_cmp_node_array]; exact int_beq_comm _ _)
  | REAL_ELEM =>
    cases vx <;> cases vy <;> first | rfl | (simp only [_cmp_node_array]; exact double_eq_comm _ _)
  | STRING_ELEM =>
    cases vx <;> cases vy <;>
      first | rfl | (simp only [_cmp_node_array]; exact beq_zero_congr (strcmp_zero_symm _ _))
  | LIST_ELEM =>
    cases vx <;> cases vy <;>
      first | rfl | (simp only [_cmp_node_array]; exact beq_zero_congr (hl _ _))
  | TREE_ELEM =>
    cases vx <;> cases vy <;>
      first | rfl | (simp only [_cmp_node_array]; exact beq_zero_congr (ht _ _))
  | HASHTAB_ELEM =>
    cases vx <;> cases vy <;>
      first | rfl | (simp only [_cmp_node_array]; exact beq_zero_congr (hh _ _))
  | ARRAY_ELEM =>
    cases vx <;> cases vy <;>
      first
      | rfl
      | (simp only [_cmp_node_array]; rw [hrec _ _ rfl rfl])
  | BIGINT_ELEM =>
    cases vx <;> cases vy <;>
      first | rfl | (simp only [_cmp_node_array]; exact beq_zero_congr (hb _ _))
  | OTHER code => cases vx <;> cases vy <;> rfl

theorem _cmp_node_array_self {C : Collab} (hrefl : collab_refl C) (type : vtype_t)
    (v : value_t C) (hreg : value_regular type v = true)
    (hrec : ∀ a, v = value_t.array a → array_regular a = true → cmp_array a a = 0) :
    _cmp_node_array type v v = true := by
  obtain ⟨hl, ht, hh, hb⟩ := hrefl
  cases v with
  | decimal x =>
    rw [value_regular, decide_eq_true_eq] at hreg; subst hreg
    rw [_cmp_node_array]; exact beq_self_eq_true x
  | real d =>
    rw [value_regular, Bool.and_eq_true, decide_eq_true_eq, Bool.not_eq_true'] at hreg
    obtain ⟨h1, h2⟩ := hreg; subst h1
    rw [_cmp_node_array]; exact double_eq_self d h2
  | string s =>
    rw [value_regular, decide_eq_true_eq] at hreg; subst hreg
    rw [_cmp_node_array, strcmp_self]; rfl
  | list l =>
    rw [value_regular, decide_eq_true_eq] at hreg; subst hreg
    rw [_cmp_node_array, hl]; rfl
  | tree t =>
    rw [value_regular, decide_eq_true_eq] at hreg; subst hreg
    rw [_cmp_node_array, ht]; rfl
  | hashtab h =>
    rw [value_regular, decide_eq_true_eq] at hreg; subst hreg
    rw [_cmp_node_array, hh]; rfl
  | array a =>
    rw [value_regular, Bool.and_eq_true, decide_eq_true_eq] at hreg
    obtain ⟨h1, h2⟩ := hreg; subst h1
    rw [_cmp_node_array, hrec a rfl h2]; rfl
  | bigint b =>
    rw [value_regular, decide_eq_true_eq] at hreg; subst hreg
    rw [_cmp_node_array, hb]; rfl
  | null =>
    rw [value_regular] at hreg; cases hreg

theorem array_regular_eq {C : Collab} (x : Array (value_t C)) :
    array_regular x = (List.range x.size).all (fun i => cell_regular x.type (x.buffer i)) := by
  cases x; rw [array_regular]

theorem cell_regular_eq {C : Collab} (type : vtype_t) (c : array_value (value_t C)) :
    cell_regular type c = (!c.exist || value_regular type c.value) := by
  cases c; rw [cell_regular]

theorem array_regular_cell {C : Collab} (x : Array (value_t C)) (h : array_regular x = true)
    (i : Nat) (hi : i < x.size) (he : (x.buffer i).exist = true) :
    value_regular x.type (x.buffer i).value = true := by
  rw [array_regular_eq, List.all_eq_true] at h
  have hc := h i (List.mem_range.mpr hi)
  rw [cell_regular_eq, he] at hc
  exact hc

theorem cmp_array_comm {C : Collab} (hsym : collab_symm C) :
    ∀ x y : Array (value_t C), cmp_array x y = cmp_array y x := by
  refine array_induction (P := fun x => ∀ y, cmp_array x y = cmp_array y x) ?_
  intro x ih y
  rw [cmp_array_eq x y, cmp_array_eq y x]
  by_cases ht : x.type = y.type
  · by_cases hs : x.size = y.size
    · rw [if_neg (not_not.mpr ht), if_neg (not_not.mpr hs), if_neg (not_not.mpr ht.symm),
        if_neg (not_not.mpr hs.symm)]
      have hbody : (fun i => cmp_array_body x.type (x.buffer i) (y.buffer i)) =
          (fun i => cmp_array_body y.type (y.buffer i) (x.buffer i)) := by
        funext i
        rw [cmp_array_body_eq, cmp_array_body_eq, ← ht,
          _cmp_node_array_symm hsym x.type (x.buffer i).value (y.buffer i).value
            (fun a b ha _ => ih i a ha b)]
        cases (x.buffer i).exist <;> cases (y.buffer i).exist <;> rfl
      rw [hbody, hs]
    · rw [if_neg (not_not.mpr ht), if_pos hs, if_neg (not_not.mpr ht.symm),
        if_pos (Ne.symm hs)]
  · rw [if_pos ht, if_pos (Ne.symm ht)]

theorem cmp_array_self {C : Collab} (hrefl : collab_refl C) :
    ∀ x : Array (value_t C), array_regular x = true → cmp_array x x = 0 := by
  refine array_induction (P := fun x => array_regular x = true → cmp_array x x = 0) ?_
  intro x ih hreg
  rw [cmp_array_eq_zero]
  refine ⟨rfl, rfl, ?_⟩
  intro i hi
  unfold cell_agree
  cases he : (x.buffer i).exist with
  | false => rfl
  | true =>
    have hv := array_regular_cell x hreg i hi he
    rw [_cmp_node_array_self hrefl x.type (x.buffer i).value hv
      (fun a ha hra => ih i a ha hra)]
    rfl

/-! ### The sample collaborators -/

theorem sample_collab_symm : collab_symm sample_collab := by
  refine ⟨?_, (fun _ _ => Iff.rfl), (fun _ _ => Iff.rfl), ?_⟩
  · intro (a : List Int) (b : List Int)
    show (if a = b then (0 : Int) else 1) = 0 ↔ (if b = a then (0 : Int) else 1) = 0
    by_cases h : a = b
    · rw [if_pos h, if_pos h.symm]
    · rw [if_neg h, if_neg (Ne.symm h)]
  · intro (a : Nat) (b : Nat)
    show (if a = b then (0 : Int) else 1) = 0 ↔ (if b = a then (0 : Int) else 1) = 0
    by_cases h : a = b
    · rw [if_pos h, if_pos h.symm]
    · rw [if_neg h, if_neg (Ne.symm h)]

theorem sample_collab_refl : collab_refl sample_collab :=
  ⟨(fun _ => if_pos rfl), (fun _ => rfl), (fun _ => rfl), (fun _ => if_pos rfl)⟩

/-- C9, amended: when the comparisons of the collaborators are symmetric and
reflexive, `cmp_array x y = cmp_array y x` for all containers (so one is `0`
iff the other is), and `cmp_array x x = 0` for every container whose present
cells hold values of its kind that are not NaN, nested containers included; a
kind mismatch gives `-1`, a capacity mismatch `-2`, and a single differing
index `1` or `2`: three pairwise distinct non-zero results. -/
theorem cmp_array_symm_refl {C : Collab} (hsym : collab_symm C) (hrefl : collab_refl C)
    (x y : Array (value_t C)) :
    cmp_array x y = cmp_array y x ∧
    (cmp_array x y = 0 ↔ cmp_array y x = 0) ∧
    (array_regular x = true → cmp_array x x = 0) ∧
    (x.type ≠ y.type → cmp_array x y = -1) ∧
    (x.type = y.type → x.size ≠ y.size → cmp_array x y = -2) ∧
    (x.type = y.type → x.size = y.size → ∀ i, i < x.size → cell_agree x y i = false →
      (∀ j, j < x.size → j ≠ i → cell_agree x y j = true) →
      cmp_array x y = 1 ∨ cmp_array x y = 2) := by
  have hc := cmp_array_comm hsym x y
  refine ⟨hc, ?_, cmp_array_self hrefl x, ?_, ?_, ?_⟩
  · rw [hc]
  · intro ht
    rw [cmp_array_eq, if_pos ht]
  · intro ht hs
    rw [cmp_array_eq, if_neg (not_not.mpr ht), if_pos hs]
  · intro ht hs i hi hat hothers
    rw [cmp_array_first_diff x y ht hs i hi (fun j hj => hothers j (by omega) (by omega)) hat]
    by_cases he : (x.buffer i).exist = (y.buffer i).exist
    · rw [if_pos he]; exact Or.inl rfl
    · rw [if_neg he]; exact Or.inr rfl

/-- Witness of the amended C9 on the sample collaborators and two decimal
containers. -/
theorem cmp_array_symm_refl_witness :
    collab_symm sample_collab ∧ collab_refl sample_collab ∧
    array_regular sample_half_full = true ∧
    cmp_array sample_half_full sample_half_other =
      cmp_array sample_half_other sample_half_full ∧
    cmp_array sample_half_full sample_half_full = 0 :=
  ⟨sample_collab_symm, sample_collab_refl, by decide,
    (cmp_array_symm_refl sample_collab_symm sample_collab_refl sample_half_full
      sample_half_other).1,
    (cmp_array_symm_refl sample_collab_symm sample_collab_refl sample_half_full
      sample_half_other).2.2.1 (by decide)⟩

/-- C9, as stated, fails: the real container of capacity 1 obtained from
`new_array` by storing a NaN at index 0 is not equal to itself under
`cmp_array`, which returns `1`. -/
theorem cmp_array_nan_not_self :
    new_array sample_collab sample_reals.buffer 1 .REAL_ELEM = some sample_reals ∧
    (set_array sample_reals 0 (.real ⟨9221120237041090560⟩)).1 = 0 ∧
    (set_array sample_reals 0 (.real ⟨9221120237041090560⟩)).2 = sample_nan ∧
    collab_symm sample_collab ∧ collab_refl sample_collab ∧
    cmp_array sample_nan sample_nan = 1 ∧ cmp_array sample_nan sample_nan ≠ 0 :=
  ⟨new_array_fresh sample_collab sample_reals (by decide) (by decide) rfl (fun _ _ => rfl),
    rfl, rfl, sample_collab_symm, sample_collab_refl, by decide, by decide⟩

/-! ### `in_array` -/

theorem del_array_of_lt {C : Collab} (a : Array (value_t C)) (i : Nat) (h : i < a.size) :
    del_array a i =
      (0, { a with
            buffer := Function.update a.buffer i
              { value := (a.buffer i).value, exist := false } }) := by
  unfold del_array; rw [if_neg (by omega)]

theorem del_array_of_ge {C : Collab} (a : Array (value_t C)) (i : Nat) (h : i ≥ a.size) :
    del_array a i = (1, a) := by
  unfold del_array; rw [if_pos h]

theorem set_array_of_lt {C : Collab} (a : Array (value_t C)) (i : Nat) (v : value_t C)
    (h : i < a.size) : set_array a i v = (0, _set_node_array a i v) := by
  unfold set_array; rw [if_neg (by omega)]

theorem set_array_of_ge {C : Collab} (a : Array (value_t C)) (i : Nat) (v : value_t C)
    (h : i ≥ a.size) : set_array a i v = (1, a) := by
  unfold set_array; rw [if_pos h]

/-- The frame of `del_array` on an index below the capacity. -/
theorem del_array_frame {C : Collab} (a : Array (value_t C)) (i : Nat) (h : i < a.size) :
    (del_array a i).2.buffer i = { value := (a.buffer i).value, exist := false } ∧
    (∀ j, j ≠ i → (del_array a i).2.buffer j = a.buffer j) ∧
    (del_array a i).2.type = a.type ∧ (del_array a i).2.size = a.size ∧
    (del_array a i).2.stack = a.stack := by
  rw [del_array_of_lt a i h]
  refine ⟨Function.update_same _ _ _, ?_, rfl, rfl, rfl⟩
  intro j hj
  exact Function.update_noteq hj _ _

theorem concat_append (l₁ l₂ : List String) : concat (l₁ ++ l₂) = concat l₁ ++ concat l₂ := by
  induction l₁ with
  | nil => show concat l₂ = "" ++ concat l₂; rw [String.empty_append]
  | cons s rest ih =>
    show s ++ concat (rest ++ l₂) = s ++ concat rest ++ concat l₂
    rw [ih, String.append_assoc]

theorem present_indices_mem {C : Collab} (a : Array (value_t C)) (j : Nat) :
    j ∈ present_indices a ↔ j < a.size ∧ (a.buffer j).exist = true := by
  unfold present_indices
  rw [List.mem_filter, List.mem_range]

theorem present_indices_sorted {C : Collab} (a : Array (value_t C)) :
    List.Pairwise (fun i j => i < j) (present_indices a) := by
  unfold present_indices
  exact List.Pairwise.sublist (List.filter_sublist _) (List.pairwise_lt_range a.size)

theorem window_ok_of_eq {V : Type} (a b : Array V) (hw : window_ok a)
    (hst : b.stack = a.stack) (hsz : b.size = a.size) : window_ok b := by
  unfold window_ok at *
  rw [hst, hsz]; exact hw

theorem set_stack_preserves {V : Type} (a : Array V) (top begin end_ : Nat)
    (hw : window_ok a) :
    window_ok (set_stack a top begin end_).2 ∧ (set_stack a top begin end_).2.type = a.type ∧
    (set_stack a top begin end_).2.size = a.size := by
  unfold set_stack
  by_cases h1 : end_ > a.size
  · rw [if_pos h1]; exact ⟨hw, rfl, rfl⟩
  · rw [if_neg h1]
    by_cases h2 : begin > end_
    · rw [if_pos h2]; exact ⟨hw, rfl, rfl⟩
    · rw [if_neg h2]
      by_cases h3 : top > end_ ∨ top < begin
      · rw [if_pos h3]; exact ⟨hw, rfl, rfl⟩
      · rw [if_neg h3]
        refine ⟨?_, rfl, rfl⟩
        show begin ≤ top ∧ top ≤ end_ ∧ end_ ≤ a.size
        omega

theorem push_stack_preserves {C : Collab} (a : Array (value_t C)) (v : value_t C)
    (hw : window_ok a) (hs : a.size < SIZE_MOD) :
    window_ok (push_stack a v).2 ∧ (push_stack a v).2.type = a.type ∧
    (push_stack a v).2.size = a.size := by
  by_cases h : a.stack.top = a.stack.end_
  · rw [push_stack_of_eq a v h]; exact ⟨hw, rfl, rfl⟩
  · rw [push_stack_of_ne a v h]
    obtain ⟨h1, h2, h3⟩ := hw
    refine ⟨?_, (_set_node_array_frame a a.stack.top v).1,
      (_set_node_array_frame a a.stack.top v).2.2⟩
    show a.stack.begin ≤ size_t_succ a.stack.top ∧ size_t_succ a.stack.top ≤ a.stack.end_ ∧
      a.stack.end_ ≤ (_set_node_array a a.stack.top v).size
    rw [size_t_succ_of_lt (by omega), (_set_node_array_frame a a.stack.top v).2.2]
    omega

theorem pop_stack_preserves {C : Collab} (a : Array (value_t C)) (hw : window_ok a) :
    window_ok (pop_stack a).2 ∧ (pop_stack a).2.type = a.type ∧
    (pop_stack a).2.size = a.size := by
  by_cases h : a.stack.top = a.stack.begin
  · rw [pop_stack_of_eq a h]; exact ⟨hw, rfl, rfl⟩
  · rw [pop_stack_of_ne a h]
    obtain ⟨h1, h2, h3⟩ := hw
    refine ⟨?_, rfl, rfl⟩
    show a.stack.begin ≤ size_t_pred a.stack.top ∧ size_t_pred a.stack.top ≤ a.stack.end_ ∧
      a.stack.end_ ≤ a.size
    rw [size_t_pred_of_pos (by omega)]
    omega

theorem set_array_preserves {C : Collab} (a : Array (value_t C)) (i : Nat) (v : value_t C)
    (hw : window_ok a) :
    window_ok (set_array a i v).2 ∧ (set_array a i v).2.type = a.type ∧
    (set_array a i v).2.size = a.size := by
  by_cases h : i ≥ a.size
  · rw [set_array_of_ge a i v h]; exact ⟨hw, rfl, rfl⟩
  · rw [set_array_of_lt a i v (by omega)]
    obtain ⟨f1, f2, f3⟩ := _set_node_array_frame a i v
    exact ⟨window_ok_of_eq a _ hw f2 f3, f1, f3⟩

theorem del_array_preserves {C : Collab} (a : Array (value_t C)) (i : Nat)
    (hw : window_ok a) :
    window_ok (del_array a i).2 ∧ (del_array a i).2.type = a.type ∧
    (del_array a i).2.size = a.size := by
  by_cases h : i ≥ a.size
  · rw [del_array_of_ge a i h]; exact ⟨hw, rfl, rfl⟩
  · obtain ⟨_, _, f1, f3, f2⟩ := del_array_frame a i (by omega)
    exact ⟨window_ok_of_eq a _ hw f2 f3, f1, f3⟩

theorem api_call_preserves {C : Collab} (c : api_call C) (a : Array (value_t C))
    (hw : window_ok a) (hs : a.size < SIZE_MOD) :
    window_ok (c.run a) ∧ (c.run a).type = a.type ∧ (c.run a).size = a.size := by
  cases c with
  | set_array i v => exact set_array_preserves a i v hw
  | del_array i => exact del_array_preserves a i hw
  | in_array v => exact ⟨hw, rfl, rfl⟩
  | set_stack top begin end_ => exact set_stack_preserves a top begin end_ hw
  | push_stack v => exact push_stack_preserves a v hw hs
  | pop_stack => exact pop_stack_preserves a hw

theorem run_calls_preserves {C : Collab} (calls : List (api_call C)) :
    ∀ a : Array (value_t C), window_ok a → a.size < SIZE_MOD →
    window_ok (run_calls calls a) ∧ (run_calls calls a).type = a.type ∧
    (run_calls calls a).size = a.size := by
  induction calls with
  | nil => intro a hw _; exact ⟨hw, rfl, rfl⟩
  | cons c cs ih =>
    intro a hw hs
    obtain ⟨p1, p2, p3⟩ := api_call_preserves c a hw hs
    obtain ⟨q1, q2, q3⟩ := ih (c.run a) p1 (by rw [p3]; exact hs)
    exact ⟨q1, by rw [← p2]; exact q2, by rw [← p3]; exact q3⟩

/-- C13: a container returned by `new_array` (capacity a `size_t`) satisfies
`begin ≤ top ≤ end ≤ size`; each of `set_array`, `del_array`, `in_array`,
`set_stack`, `push_stack`, `pop_stack`, whatever its outcome, preserves the
invariant, the kind and the capacity; so after any sequence of calls the
invariant holds, kind and capacity are those given to `new_array`, and
`size_stack ≤ end − begin ≤ size`. -/
theorem window_invariant {C : Collab} (memory : Nat → array_value (value_t C)) (n : Nat)
    (kind : vtype_t) (a0 : Array (value_t C))
    (h0 : new_array C memory n kind = some a0) (hn : n < SIZE_MOD) :
    window_ok a0 ∧
    (∀ (c : api_call C) (a : Array (value_t C)), window_ok a → a.size < SIZE_MOD →
      window_ok (c.run a) ∧ (c.run a).type = a.type ∧ (c.run a).size = a.size) ∧
    (∀ calls : List (api_call C),
      window_ok (run_calls calls a0) ∧ (run_calls calls a0).type = kind ∧
      (run_calls calls a0).size = n ∧
      size_stack (run_calls calls a0) ≤
        (run_calls calls a0).stack.end_ - (run_calls calls a0).stack.begin ∧
      (run_calls calls a0).stack.end_ - (run_calls calls a0).stack.begin ≤
        (run_calls calls a0).size) := by
  obtain ⟨k1, k2, k3, _⟩ := new_array_some memory n kind a0 h0
  have hw0 : window_ok a0 := by
    unfold window_ok; rw [k3, k2]
    exact ⟨Nat.le_refl 0, Nat.zero_le n, Nat.le_refl n⟩
  refine ⟨hw0, (fun c a hw hs => api_call_preserves c a hw hs), ?_⟩
  intro calls
  obtain ⟨q1, q2, q3⟩ := run_calls_preserves calls a0 hw0 (by rw [k2]; exact hn)
  refine ⟨q1, by rw [q2, k1], by rw [q3, k2], ?_, ?_⟩
  · obtain ⟨w1, w2, w3⟩ := q1
    unfold size_stack
    rw [size_t_sub_of_le w1]
    omega
  · obtain ⟨w1, w2, w3⟩ := q1
    omega

/-- Witness of C13: the list container of capacity 3 after a push, a window
change that is refused, a pop and a deletion. -/
theorem window_invariant_witness :
    new_array sample_collab sample_lists.buffer 3 .LIST_ELEM = some sample_lists ∧
    3 < SIZE_MOD ∧
    window_ok (run_calls [.push_stack (.list [5]), .set_stack 4 0 3, .pop_stack,
      .del_array 0] sample_lists) ∧
    (run_calls [.push_stack (.list [5]), .set_stack 4 0 3, .pop_stack,
      .del_array 0] sample_lists).size = 3 :=
  ⟨new_array_fresh sample_collab sample_lists (by decide) (by decide) rfl (fun _ _ => rfl),
    by decide,
    ((window_invariant sample_lists.buffer 3 .LIST_ELEM sample_lists
      (new_array_fresh sample_collab sample_lists (by decide) (by decide) rfl
        (fun _ _ => rfl)) (by decide)).2.2
      [.push_stack (.list [5]), .set_stack 4 0 3, .pop_stack, .del_array 0]).1,
    ((window_invariant sample_lists.buffer 3 .LIST_ELEM sample_lists
      (new_array_fresh sample_collab sample_lists (by decide) (by decide) rfl
        (fun _ _ => rfl)) (by decide)).2.2
      [.push_stack (.list [5]), .set_stack 4 0 3, .pop_stack, .del_array 0]).2.2.1⟩

/-! ### The stack comparison -/

theorem free_array_eq {C : Collab} (a : Array (value_t C)) :
    free_array a =
      if a.type ∈ composite_kinds then
        for_log (fun i => _free_array_body a.type (a.buffer i)) a.size 0
      else [] := by
  obtain ⟨type, buffer, stack, size⟩ := a
  cases type <;> rw [free_array] <;> simp [composite_kinds]

theorem _free_array_body_eq {C : Collab} (type : vtype_t) (c : array_value (value_t C)) :
    _free_array_body type c = if !c.exist then [] else _free_node_array type c.value := by
  cases c; rw [_free_array_body]

theorem _free_node_array_eq {C : Collab} (type : vtype_t) (value : value_t C) :
    _free_node_array type value =
      if type ∈ composite_kinds then [release.mk type value (nested_releases type value)]
      else [] := by
  cases type <;> cases value <;> rw [_free_node_array] <;>
    simp [composite_kinds, nested_releases]

theorem for_log_eq_flatten {E : Type} (body : Nat → List E) (n : Nat) : ∀ i,
    for_log body n i = ((List.range' i n).map body).flatten := by
  induction n with
  | zero => intro i; rfl
  | succ n ih =>
    intro i
    show body i ++ for_log body n (i + 1) = body i ++ ((List.range' (i + 1) n).map body).flatten
    rw [ih (i + 1)]

/-- A loop whose body invokes one release on the selected indices and none on
the others invokes them on the selected indices in order. -/
theorem flatten_map_filter {E : Type} (f : Nat → E) (p : Nat → Bool) (l : List Nat) :
    (l.map (fun j => if !p j then [] else [f j])).flatten = (l.filter p).map f := by
  induction l with
  | nil => rfl
  | cons j rest ih =>
    rw [List.map_cons, List.flatten_cons, ih]
    cases hp : p j with
    | true => rw [List.filter_cons_of_pos hp]; rfl
    | false => rw [List.filter_cons_of_neg (by rw [hp]; exact Bool.false_ne_true)]; rfl

theorem _free_array_eq_free_array {C : Collab} (a : Array (value_t C))
    (hk : a.type ∈ composite_kinds) : _free_array a = free_array a := by
  rw [free_array_eq, if_pos hk]
  unfold _free_array
  congr 1
  funext i
  rw [_free_array_body_eq]

/-- C15: for a container of a composite kind `free_array` invokes the deep-free
of the kind once on the content of each present cell, in ascending order of
the indices, and on no absent cell; the invocation on a nested container makes
the invocations of `free_array` on it; these are the invocations of the loop
`_free_array`.  For a container of kind decimal, real or string it invokes
none. -/
theorem free_array_spec {C : Collab} (a : Array (value_t C)) :
    (a.type ∈ composite_kinds →
      free_array a = (present_indices a).map (fun j =>
        release.mk a.type (a.buffer j).value (nested_releases a.type (a.buffer j).value)) ∧
      (free_array a).map release.content = (present_indices a).map (fun j => (a.buffer j).value) ∧
      free_array a = _free_array a) ∧
    List.Pairwise (fun i j => i < j) (present_indices a) ∧
    (∀ j, j ∈ present_indices a ↔ j < a.size ∧ (a.buffer j).exist = true) ∧
    (∀ b : Array (value_t C), nested_releases .ARRAY_ELEM (.array b) = free_array b) ∧
    (a.type = .DECIMAL_ELEM ∨ a.type = .REAL_ELEM ∨ a.type = .STRING_ELEM → free_array a = []) := by
  have main : a.type ∈ composite_kinds →
      free_array a = (present_indices a).map (fun j =>
        release.mk a.type (a.buffer j).value (nested_releases a.type (a.buffer j).value)) := by
    intro hk
    rw [free_array_eq, if_pos hk, for_log_eq_flatten, ← List.range_eq_range']
    unfold present_indices
    rw [← flatten_map_filter]
    congr 2
    funext j
    rw [_free_array_body_eq, _free_node_array_eq, if_pos hk]
  refine ⟨?_, present_indices_sorted a, present_indices_mem a, (fun _ => rfl), ?_⟩
  · intro hk
    refine ⟨main hk, ?_, (_free_array_eq_free_array a hk).symm⟩
    rw [main hk, List.map_map]
    rfl
  · intro hk
    rw [free_array_eq]
    apply if_neg
    intro hc
    unfold composite_kinds at hc
    obtain h | h | h := hk <;> rw [h] at hc <;> simp at hc

/-- Witness of C15: `free_array` on the array container whose cell 1 holds a list
container with cells 0 and 2 present invokes `free_array` once, and inside it
`free_list` on cell 0 and then on cell 2. -/
theorem free_array_spec_witness :
    sample_nested.type ∈ composite_kinds ∧
    free_array sample_nested =
      [.mk .ARRAY_ELEM (.array sample_two_lists)
        [.mk .LIST_ELEM (.list [1]) [], .mk .LIST_ELEM (.list [2, 3]) []]] :=
  ⟨by decide, ((free_array_spec sample_nested).1 (by decide)).1.trans rfl⟩

theorem set_array_releases_of_lt {C : Collab} (a : Array (value_t C)) (i : Nat) (v : value_t C)
    (hi : i < a.size) :
    set_array_releases a i v =
      if (a.buffer i).exist then _free_node_array a.type (a.buffer i).value else [] := by
  unfold set_array_releases _set_node_array_releases
  rw [if_neg (by omega)]

/-- C16: for a container of a composite kind and an index below the capacity,
`set_array` invokes the deep-free of the kind once, on the old content of the
cell, when the cell is present, and invokes none when the cell is absent; the
invocations are the same for any new value and any content of the other
cells. -/
theorem set_array_releases_spec {C : Collab} (a : Array (value_t C)) (i : Nat) (v : value_t C)
    (hk : a.type ∈ composite_kinds) (hi : i < a.size) :
    ((a.buffer i).exist = true →
      set_array_releases a i v =
        [release.mk a.type (a.buffer i).value (nested_releases a.type (a.buffer i).value)] ∧
      (set_array_releases a i v).map release.content = [(a.buffer i).value]) ∧
    ((a.buffer i).exist = false → set_array_releases a i v = []) ∧
    (∀ (b : Array (value_t C)) (w : value_t C), b.type = a.type → i < b.size →
      b.buffer i = a.buffer i → set_array_releases b i w = set_array_releases a i v) := by
  refine ⟨?_, ?_, ?_⟩
  · intro he
    have h : set_array_releases a i v =
        [release.mk a.type (a.buffer i).value (nested_releases a.type (a.buffer i).value)] := by
      rw [set_array_releases_of_lt a i v hi, he, _free_node_array_eq, if_pos hk]
      exact if_pos rfl
    exact ⟨h, by rw [h]; rfl⟩
  · intro he
    rw [set_array_releases_of_lt a i v hi, he]
    exact if_neg Bool.false_ne_true
  · intro b w ht hb hc
    rw [set_array_releases_of_lt a i v hi, set_array_releases_of_lt b i w hb, ht, hc]

/-- Witness of C16: storing a new list in the present cell 0 of the list
container invokes `free_list` on the old list. -/
theorem set_array_releases_spec_witness :
    sample_two_lists.type ∈ composite_kinds ∧ 0 < sample_two_lists.size ∧
    set_array_releases sample_two_lists 0 (.list [9]) = [.mk .LIST_ELEM (.list [1]) []] :=
  ⟨by decide, by decide,
    ((set_array_releases_spec sample_two_lists 0 (.list [9]) (by decide) (by decide)).1
      rfl).1.trans rfl⟩

/-! ### `print_stack` -/

theorem for_print_defined_congr (f g : Nat → Option String) (n : Nat) : ∀ i,
    (∀ k, i ≤ k → k < i + n → f k = g k) →
    for_print_defined f n i = for_print_defined g n i := by
  induction n with
  | zero => intro i _; rfl
  | succ n ih =>
    intro i h
    unfold for_print_defined
    rw [h i (Nat.le_refl i) (by omega), ih (i + 1) (fun k h1 h2 => h k (by omega) (by omega))]

/-- C18 on the code: on the list container whose cell 0 holds the list `[1]`, the
first `del_array` at index 0 invokes `free_list` on the list and leaves the
cell absent, and a second `del_array` at the same index returns `0` and
invokes `free_list` on the same content again; on the fresh list container,
whose cell 0 was never set, `del_array` invokes `free_list` on the zeroed
content.  `set_array` on the absent cell invokes nothing. -/
theorem del_array_releases_absent_cell :
    new_array sample_collab sample_lists.buffer 3 .LIST_ELEM = some sample_lists ∧
    del_array_releases sample_list_set 0 = [.mk .LIST_ELEM (.list [1]) []] ∧
    ((del_array sample_list_set 0).2.buffer 0).exist = false ∧
    (del_array (del_array sample_list_set 0).2 0).1 = 0 ∧
    del_array_releases (del_array sample_list_set 0).2 0 = [.mk .LIST_ELEM (.list [1]) []] ∧
    (sample_lists.buffer 0).exist = false ∧
    del_array_releases sample_lists 0 = [.mk .LIST_ELEM .null []] ∧
    set_array_releases (del_array sample_list_set 0).2 0 (.list [2]) = [] :=
  ⟨new_array_fresh sample_collab sample_lists (by decide) (by decide) rfl (fun _ _ => rfl),
    rfl, rfl, rfl, rfl, rfl, rfl, rfl⟩

/-- C19, amended: on a container of a composite kind satisfying the window
invariant (capacity a `size_t`) on which `pop_stack` succeeds, returning the
value `v` of the cell below `top`, an immediately following `push_stack w`
succeeds, stores `w` (a value of the kind) in that cell and restores the
window; it invokes the deep-free of the kind once, on `v`, when that cell is
present, and invokes none when the cell is absent. -/
theorem pop_push_releases {C : Collab} (a : Array (value_t C)) (w : value_t C)
    (hk : a.type ∈ composite_kinds) (hw : window_ok a) (hs : a.size < SIZE_MOD)
    (hne : a.stack.top ≠ a.stack.begin) :
    (pop_stack a).1 = some (a.buffer (a.stack.top - 1)).value ∧
    (push_stack (pop_stack a).2 w).1 = 0 ∧
    ((push_stack (pop_stack a).2 w).2.buffer (a.stack.top - 1)).exist = true ∧
    (has_kind w a.type = true →
      ((push_stack (pop_stack a).2 w).2.buffer (a.stack.top - 1)).value = w) ∧
    (push_stack (pop_stack a).2 w).2.stack = a.stack ∧
    ((a.buffer (a.stack.top - 1)).exist = true →
      push_stack_releases (pop_stack a).2 w =
        [release.mk a.type (a.buffer (a.stack.top - 1)).value
          (nested_releases a.type (a.buffer (a.stack.top - 1)).value)] ∧
      (push_stack_releases (pop_stack a).2 w).map release.content =
        [(a.buffer (a.stack.top - 1)).value]) ∧
    ((a.buffer (a.stack.top - 1)).exist = false →
      push_stack_releases (pop_stack a).2 w = []) := by
  obtain ⟨h1, h2, h3⟩ := hw
  have hpred : size_t_pred a.stack.top = a.stack.top - 1 := size_t_pred_of_pos (by omega)
  have hpop := pop_stack_of_ne a hne
  rw [hpred] at hpop
  have hne2 : (pop_stack a).2.stack.top ≠ (pop_stack a).2.stack.end_ := by
    rw [hpop]; show a.stack.top - 1 ≠ a.stack.end_; omega
  have hpush := push_stack_of_ne (pop_stack a).2 w hne2
  have htop : (pop_stack a).2.stack.top = a.stack.top - 1 := by rw [hpop]
  have hbuf : (pop_stack a).2.buffer = a.buffer := by rw [hpop]
  have htype : (pop_stack a).2.type = a.type := by rw [hpop]
  have hrel : push_stack_releases (pop_stack a).2 w =
      if (a.buffer (a.stack.top - 1)).exist then
        _free_node_array a.type (a.buffer (a.stack.top - 1)).value
      else [] := by
    unfold push_stack_releases _set_node_array_releases
    rw [if_neg hne2, htop, hbuf, htype]
  refine ⟨by rw [hpop], by rw [hpush], ?_, ?_, ?_, ?_, ?_⟩
  · rw [hpush, htop]
    exact _set_node_array_exist (pop_stack a).2 (a.stack.top - 1) w
  · intro hkw
    rw [hpush, htop]
    show ((_set_node_array (pop_stack a).2 (a.stack.top - 1) w).buffer (a.stack.top - 1)).value = w
    rw [_set_node_array_value (pop_stack a).2 (a.stack.top - 1) w (by rw [htype]; exact hkw)]
  · rw [hpush, htop, size_t_succ_of_lt (by omega)]
    show ({ begin := (pop_stack a).2.stack.begin, end_ := (pop_stack a).2.stack.end_,
            top := a.stack.top - 1 + 1 } : array_stack) = a.stack
    rw [hpop]
    show ({ begin := a.stack.begin, end_ := a.stack.end_,
            top := a.stack.top - 1 + 1 } : array_stack) = a.stack
    rw [Nat.sub_add_cancel (by omega)]
  · intro he
    have h : push_stack_releases (pop_stack a).2 w =
        [release.mk a.type (a.buffer (a.stack.top - 1)).value
          (nested_releases a.type (a.buffer (a.stack.top - 1)).value)] := by
      rw [hrel, he, _free_node_array_eq, if_pos hk]
      exact if_pos rfl
    exact ⟨h, by rw [h]; rfl⟩
  · intro he
    rw [hrel, he]
    exact if_neg Bool.false_ne_true

/-- Witness of the amended C19: on the fresh list container after a push of the
list `[1]`, a pop returns the list and the push that follows invokes
`free_list` on it. -/
theorem pop_push_releases_witness :
    (push_stack sample_lists (.list [1])).2.type ∈ composite_kinds ∧
    window_ok (push_stack sample_lists (.list [1])).2 ∧
    (pop_stack (push_stack sample_lists (.list [1])).2).1 = some (.list [1]) ∧
    push_stack_releases (pop_stack (push_stack sample_lists (.list [1])).2).2 (.list [2]) =
      [.mk .LIST_ELEM (.list [1]) []] :=
  ⟨by decide, by decide,
    (pop_push_releases (push_stack sample_lists (.list [1])).2 (.list [2]) (by decide)
      (by decide) (by decide) (by decide)).1.trans rfl,
    ((pop_push_releases (push_stack sample_lists (.list [1])).2 (.list [2]) (by decide)
      (by decide) (by decide) (by decide)).2.2.2.2.2.1 rfl).1.trans rfl⟩

/-- C19, as stated, fails: on the list container whose window `[0, 1)` holds a
cell that `del_array` left absent, `pop_stack` succeeds and returns the list
`[1]`, the push that follows succeeds, and no deep-free is invoked. -/
theorem pop_push_no_release :
    sample_list_deleted.type ∈ composite_kinds ∧ window_ok sample_list_deleted ∧
    (pop_stack sample_list_deleted).1 = some (.list [1]) ∧
    (push_stack (pop_stack sample_list_deleted).2 (.list [2])).1 = 0 ∧
    push_stack_releases (pop_stack sample_list_deleted).2 (.list [2]) = [] :=
  ⟨by decide, by decide, rfl, rfl, rfl⟩

/-! ### Accessed indices -/

/-- The loop of `cmp_stack` evaluates its body at the pairs of
`for_return2_visits` only. -/
theorem for_return2_congr {R : Type} (f g : Nat → Nat → Option R) (n : Nat) : ∀ i j,
    (∀ p, p ∈ for_return2_visits n i j → f p.1 p.2 = g p.1 p.2) →
    for_return2 f n i j = for_return2 g n i j := by
  induction n with
  | zero => intro i j _; rfl
  | succ n ih =>
    intro i j h
    unfold for_return2
    rw [h (i, j) (by unfold for_return2_visits; exact List.mem_cons_self _ _)]
    cases g i j with
    | some r => rfl
    | none =>
      exact ih (i + 1) (size_t_succ j) (fun p hp => h p (by
        unfold for_return2_visits; exact List.mem_cons_of_mem _ hp))

/-- The pairs visited by the loop of `cmp_stack` are the pairs at equal offsets
from the two start indices. -/
theorem for_return2_visits_mem (n : Nat) : ∀ i j, j + n < SIZE_MOD →
    ∀ p, p ∈ for_return2_visits n i j → ∃ k, k < n ∧ p = (i + k, j + k) := by
  induction n with
  | zero => intro i j _ p hp; unfold for_return2_visits at hp; cases hp
  | succ n ih =>
    intro i j hj p hp
    unfold for_return2_visits at hp
    rcases List.mem_cons.mp hp with h | h
    · exact ⟨0, Nat.succ_pos n, h⟩
    · rw [size_t_succ_of_lt (by omega)] at h
      obtain ⟨k, hk, hpk⟩ := ih (i + 1) (j + 1) (by omega) p h
      refine ⟨k + 1, by omega, ?_⟩
      rw [hpk, Nat.add_assoc, Nat.add_assoc, Nat.add_comm 1 k]

theorem cmp_stack_visits_bound {C : Collab} (x y : Array (value_t C))
    (hx : window_ok x) (hy : window_ok y) (hys : y.size < SIZE_MOD)
    (hl : size_t_sub x.stack.top x.stack.begin = size_t_sub y.stack.top y.stack.begin) :
    ∀ p, p ∈ for_return2_visits (x.stack.top - x.stack.begin) x.stack.begin y.stack.begin →
      x.stack.begin ≤ p.1 ∧ p.1 < x.stack.top ∧ p.1 < x.size ∧
      y.stack.begin ≤ p.2 ∧ p.2 < y.stack.top ∧ p.2 < y.size := by
  obtain ⟨x1, x2, x3⟩ := hx
  obtain ⟨y1, y2, y3⟩ := hy
  rw [size_t_sub_of_le x1, size_t_sub_of_le y1] at hl
  intro p hp
  obtain ⟨k, hk, hpk⟩ := for_return2_visits_mem _ x.stack.begin y.stack.begin (by omega) p hp
  rw [hpk]
  show x.stack.begin ≤ x.stack.begin + k ∧ x.stack.begin + k < x.stack.top ∧
    x.stack.begin + k < x.size ∧ y.stack.begin ≤ y.stack.begin + k ∧
    y.stack.begin + k < y.stack.top ∧ y.stack.begin + k < y.size
  omega

/-- C20: under the window invariant (the capacity of `y` being a `size_t`) the
index `push_stack` writes, the index `pop_stack` reads, the indices
`print_stack` visits and, once the kind, width and length checks of
`cmp_stack` have passed, the indices `i` into `x` and `j` into `y` of its loop
are below the capacity of their container, `i` within `[x.begin, x.top)` and
`j` within `[y.begin, y.top)`; the four operations give the same results on
containers that differ only in cells at or above the capacity. -/
theorem stack_access_in_bounds {C : Collab} (P : Printers C) (x y : Array (value_t C))
    (hx : window_ok x) (hy : window_ok y) (hys : y.size < SIZE_MOD) :
    (x.stack.top ≠ x.stack.end_ → x.stack.top < x.size) ∧
    (x.stack.top ≠ x.stack.begin → size_t_pred x.stack.top < x.size) ∧
    (∀ i, i ∈ List.range' x.stack.begin (x.stack.top - x.stack.begin) → i < x.size) ∧
    (x.type = y.type →
      size_t_sub x.stack.end_ x.stack.begin = size_t_sub y.stack.end_ y.stack.begin →
      size_t_sub x.stack.top x.stack.begin = size_t_sub y.stack.top y.stack.begin →
      ∀ p, p ∈ for_return2_visits (x.stack.top - x.stack.begin) x.stack.begin y.stack.begin →
        x.stack.begin ≤ p.1 ∧ p.1 < x.stack.top ∧ p.1 < x.size ∧
        y.stack.begin ≤ p.2 ∧ p.2 < y.stack.top ∧ p.2 < y.size) ∧
    (∀ x2 y2 : Array (value_t C),
      x2.type = x.type → x2.stack = x.stack → x2.size = x.size →
      (∀ i, i < x.size → x2.buffer i = x.buffer i) →
      y2.type = y.type → y2.stack = y.stack → y2.size = y.size →
      (∀ j, j < y.size → y2.buffer j = y.buffer j) →
      (∀ v, (push_stack x2 v).1 = (push_stack x v).1 ∧
        (∀ i, i < x.size → (push_stack x2 v).2.buffer i = (push_stack x v).2.buffer i) ∧
        push_stack_releases x2 v = push_stack_releases x v) ∧
      (pop_stack x2).1 = (pop_stack x).1 ∧
      print_stack P x2 = print_stack P x ∧
      cmp_stack x2 y2 = cmp_stack x y) := by
  have x1 := hx.1
  have x2_ := hx.2.1
  have x3 := hx.2.2
  refine ⟨(fun h => by omega), ?_, ?_, ?_, ?_⟩
  · intro h
    rw [size_t_pred_of_pos (by omega)]
    omega
  · intro i hi
    have := List.mem_range'_1.mp hi
    omega
  · intro _ _ hl
    exact cmp_stack_visits_bound x y hx hy hys hl
  · intro x2 y2 xt xst xsz xb yt yst ysz yb
    refine ⟨?_, ?_, ?_, ?_⟩
    · intro v
      by_cases h : x.stack.top = x.stack.end_
      · have h2 : x2.stack.top = x2.stack.end_ := by rw [xst]; exact h
        rw [push_stack_of_eq x v h, push_stack_of_eq x2 v h2]
        refine ⟨rfl, xb, ?_⟩
        unfold push_stack_releases
        rw [if_pos h, if_pos h2]
      · have h2 : x2.stack.top ≠ x2.stack.end_ := by rw [xst]; exact h
        have htop : x.stack.top < x.size := by omega
        rw [push_stack_of_ne x v h, push_stack_of_ne x2 v h2]
        refine ⟨rfl, ?_, ?_⟩
        · intro i hi
          show (_set_node_array x2 x2.stack.top v).buffer i =
            (_set_node_array x x.stack.top v).buffer i
          rw [xst]
          by_cases hit : i = x.stack.top
          · rw [hit]
            unfold _set_node_array
            simp only [Function.update_same, xt, xb x.stack.top htop]
          · rw [_set_node_array_other x2 x.stack.top i v hit,
              _set_node_array_other x x.stack.top i v hit, xb i hi]
        · unfold push_stack_releases _set_node_array_releases
          rw [if_neg h, if_neg h2, xst, xt, xb x.stack.top htop]
    · by_cases h : x.stack.top = x.stack.begin
      · have h2 : x2.stack.top = x2.stack.begin := by rw [xst]; exact h
        rw [pop_stack_of_eq x h, pop_stack_of_eq x2 h2]
      · have h2 : x2.stack.top ≠ x2.stack.begin := by rw [xst]; exact h
        rw [pop_stack_of_ne x h, pop_stack_of_ne x2 h2, xst]
        show some (x2.buffer (size_t_pred x.stack.top)).value =
          some (x.buffer (size_t_pred x.stack.top)).value
        rw [size_t_pred_of_pos (by omega), xb (x.stack.top - 1) (by omega)]
    · unfold print_stack
      rw [xst, xt]
      rw [for_print_defined_congr _
        (fun i => print_stack_body P x.type (x.buffer i).value)]
      intro i h1 h2
      show print_stack_body P x.type (x2.buffer i).value = _
      rw [xb i (by omega)]
    · unfold cmp_stack
      rw [xt, yt, xst, yst]
      by_cases h1 : x.type ≠ y.type
      · rw [if_pos h1, if_pos h1]
      · rw [if_neg h1, if_neg h1]
        by_cases h2 : size_t_sub x.stack.end_ x.stack.begin ≠ size_t_sub y.stack.end_ y.stack.begin
        · rw [if_pos h2, if_pos h2]
        · rw [if_neg h2, if_neg h2]
          by_cases h3 : size_t_sub x.stack.top x.stack.begin ≠ size_t_sub y.stack.top y.stack.begin
          · rw [if_pos h3, if_pos h3]
          · rw [if_neg h3, if_neg h3]
            have hb := cmp_stack_visits_bound x y hx hy hys (not_not.mp h3)
            rw [for_return2_congr _ (fun i j =>
              cmp_stack_body x.type (x.buffer i).value (y.buffer j).value)]
            intro p hp
            obtain ⟨_, _, b3, _, _, b6⟩ := hb p hp
            show cmp_stack_body x.type (x2.buffer p.1).value (y2.buffer p.2).value = _
            rw [xb p.1 b3, yb p.2 b6]

/-- Witness of C20: the two half-full decimal containers; the loop of `cmp_stack`
visits the pair `(0, 0)` only, the pop reads index 0 and the push writes
index 1, all below the capacity 2. -/
theorem stack_access_in_bounds_witness :
    window_ok sample_half_full ∧ window_ok sample_half_other ∧
    sample_half_other.size < SIZE_MOD ∧
    for_return2_visits (sample_half_full.stack.top - sample_half_full.stack.begin)
      sample_half_full.stack.begin sample_half_other.stack.begin = [(0, 0)] ∧
    ((0, 0) : Nat × Nat).2 < sample_half_other.size ∧
    size_t_pred sample_half_full.stack.top < sample_half_full.size ∧
    sample_half_full.stack.top < sample_half_full.size :=
  ⟨by decide, by decide, by decide, rfl,
    ((stack_access_in_bounds sample_printers sample_half_full sample_half_other (by decide)
      (by decide) (by decide)).2.2.2.1 rfl rfl rfl (0, 0)
      (List.mem_cons_self _ _)).2.2.2.2.2,
    (stack_access_in_bounds sample_printers sample_half_full sample_half_other (by decide)
      (by decide) (by decide)).2.1 (by decide),
    (stack_access_in_bounds sample_printers sample_half_full sample_half_other (by decide)
      (by decide) (by decide)).1 (by decide)⟩

end extclib
